import Mathlib

/-!
# H3 payment-area proof of concept: selection, commit and validation

A shallow embedding of `src/common.js` (the localStorage-backed pages) and of the
request built by `src/frontend/scripts_api_patch.js` and `src/app/scripts/api_client.js`.

* The h3-js library and the JavaScript number/text built-ins are not part of the
  repository; they are parameters (`H3`, `JS`) of every definition that calls them.
  `stdJS` gives the built-ins on exact decimal values, for evaluating the functions on
  given texts; the rounding of numbers to doubles is not modelled.
* A JavaScript `Map` is an association list in insertion order.
* Leaflet layers and markers, DOM styling and the texts of alerts are not modelled; the
  alert a function raises is returned as a signal value.
* The values read from the merchant form (`parseFloat` of the latitude and longitude
  fields, `parseInt` of the resolution select) are arguments of the merchant-page
  functions; the resolution is an integer.
-/

namespace H3Poc

/-! ## Numbers, cells and the external primitives -/

/-- A JavaScript number as far as the program observes it: `NaN`, the two infinities,
or a finite value (kept exact, as a rational). -/
inductive JSNum where
  | nan
  | posInf
  | negInf
  | fin (q : ℚ)
deriving DecidableEq

namespace JSNum

/-- The global `isNaN` on a number. -/
def isNaN : JSNum → Bool
  | nan => true
  | _ => false

/-- The comparison `a <= b` of JavaScript numbers (false as soon as one side is `NaN`). -/
def le : JSNum → JSNum → Bool
  | nan, _ => false
  | _, nan => false
  | negInf, _ => true
  | _, posInf => true
  | posInf, _ => false
  | _, negInf => false
  | fin a, fin b => decide (a ≤ b)

end JSNum

/-- An H3 index as h3-js returns it: a string. -/
abbrev Cell := String

/-- A coordinate object `{ lat, lng }`. -/
structure LatLng where
  lat : JSNum
  lng : JSNum
deriving DecidableEq

/-- The h3-js functions the program calls. Each one may throw; a thrown error is
`Except.error` with its message. -/
structure H3 where
  latLngToCell : JSNum → JSNum → Int → Except String Cell
  gridDisk : Cell → Nat → Except String (List Cell)
  cellToLatLng : Cell → Except String (JSNum × JSNum)
  cellToBoundary : Cell → Except String (List (JSNum × JSNum))

/-- The JavaScript built-ins on numbers and text that the program calls:
`parseFloat(s)`, `x.toFixed(6)` and the conversion `String(x)` done by an
assignment of a number to the `value` of an input. -/
structure JS where
  parseFloat : String → JSNum
  toFixed6 : JSNum → String
  numToString : JSNum → String

deriving instance DecidableEq for Except

/-- Whether a call returned (did not throw). -/
def succeeds {ε α : Type} : Except ε α → Bool
  | .ok _ => true
  | .error _ => false

/-! ## Text helpers used by `parseCoordinates` -/

/-- The characters matched by `\s` and removed by `String.prototype.trim`. -/
def isJSWhitespace (c : Char) : Bool :=
  let n := c.toNat
  (9 ≤ n && n ≤ 13) || n == 32 || n == 160 || n == 5760 || (8192 ≤ n && n ≤ 8202) ||
    n == 8232 || n == 8233 || n == 8239 || n == 8287 || n == 12288 || n == 65279

/-- The method `trim()`, on the list of characters of a string. -/
def jsTrim (s : List Char) : List Char :=
  ((s.dropWhile isJSWhitespace).reverse.dropWhile isJSWhitespace).reverse

/-- The call `replace(/\s+/g, ' ')`: every maximal run of whitespace becomes one space.
The flag tells whether the previous character belonged to a run. -/
def collapseWhitespace (inRun : Bool) : List Char → List Char
  | [] => []
  | c :: cs =>
    if isJSWhitespace c then
      if inRun then collapseWhitespace true cs else ' ' :: collapseWhitespace true cs
    else c :: collapseWhitespace false cs

/-- Lines 7-31: `parseCoordinates(input)`; `none` is `null`. -/
def parseCoordinates (js : JS) (input : String) : Option LatLng :=
  if input = "" ∨ jsTrim input.data = [] then none
  else
    let cleanInput := collapseWhitespace false (jsTrim input.data)
    let commaIndex := cleanInput.indexOf ','
    if commaIndex = cleanInput.length then none
    else
      let leftPart := jsTrim (cleanInput.take commaIndex)
      let rightPart := jsTrim (cleanInput.drop (commaIndex + 1))
      let first := js.parseFloat (String.mk leftPart)
      let second := js.parseFloat (String.mk rightPart)
      if first.isNaN || second.isNaN then none
      else
        let firstIsLat := (JSNum.fin (-90)).le first && first.le (JSNum.fin 90)
        let secondIsLng := (JSNum.fin (-180)).le second && second.le (JSNum.fin 180)
        if firstIsLat && secondIsLng then some { lat := first, lng := second }
        else some { lat := second, lng := first }

/-! ## The built-ins on numbers and text, on exact values -/

/-- The strict inequality `a !== b` of two numbers (`NaN` differs from everything). -/
def JSNum.strictNe (a b : JSNum) : Bool :=
  a.isNaN || b.isNaN || decide (a ≠ b)

/-- A decimal digit. -/
def isDecimalDigit (c : Char) : Bool := 48 ≤ c.toNat && c.toNat ≤ 57

/-- The number written by a list of decimal digits. -/
def digitsValue (ds : List Char) : Nat :=
  ds.foldl (fun n c => 10 * n + (c.toNat - 48)) 0

/-- The value of the exponent part (`e` or `E`, an optional sign, digits) that starts
the text, 0 when the text does not start with one. -/
def exponentValue (s : List Char) : Int :=
  match s with
  | c :: rest =>
    if c = 'e' ∨ c = 'E' then
      match rest with
      | '-' :: r =>
        if r.takeWhile isDecimalDigit = [] then 0
        else -((digitsValue (r.takeWhile isDecimalDigit) : Nat) : Int)
      | '+' :: r => ((digitsValue (r.takeWhile isDecimalDigit) : Nat) : Int)
      | r => ((digitsValue (r.takeWhile isDecimalDigit) : Nat) : Int)
    else 0
  | [] => 0

/-- The value of an unsigned decimal literal that starts the text `u`, `nan` when
there is none: `Infinity`, or digits with an optional fraction and exponent. -/
def unsignedLiteral (negative : Bool) (u : List Char) : JSNum :=
  if u.take 8 = ['I', 'n', 'f', 'i', 'n', 'i', 't', 'y'] then
    if negative then .negInf else .posInf
  else
    let intDigits := u.takeWhile isDecimalDigit
    let afterInt := u.dropWhile isDecimalDigit
    let fracDigits :=
      match afterInt with
      | '.' :: r => r.takeWhile isDecimalDigit
      | _ => []
    let afterFrac :=
      match afterInt with
      | '.' :: r => r.dropWhile isDecimalDigit
      | _ => afterInt
    if intDigits = [] ∧ fracDigits = [] then .nan
    else
      let mantissa : Int := (digitsValue (intDigits ++ fracDigits) : Nat)
      let signed : Int := if negative then -mantissa else mantissa
      let scale : Int := exponentValue afterFrac - (fracDigits.length : Nat)
      if 0 ≤ scale then .fin (mkRat (signed * 10 ^ scale.toNat) 1)
      else .fin (mkRat signed (10 ^ (-scale).toNat))

/-- The global `parseFloat` on a string: leading whitespace is skipped and the longest
decimal literal that starts the rest is read, whatever follows it; `nan` when there is
none. The value is kept exact: the rounding to a double, overflow to an infinity
included, is not modelled. -/
def jsParseFloat (s : String) : JSNum :=
  match s.data.dropWhile isJSWhitespace with
  | '-' :: u => unsignedLiteral true u
  | '+' :: u => unsignedLiteral false u
  | u => unsignedLiteral false u

/-- The decimal digits of the fraction `r / den` (with `r < den`), at most `fuel` of
them, up to the last non-zero one when the expansion ends. -/
def fractionDigits (den : Nat) : Nat → Nat → List Char
  | 0, _ => []
  | fuel + 1, r =>
    if r = 0 then []
    else Char.ofNat (48 + 10 * r / den) :: fractionDigits den fuel (10 * r % den)

/-- The method `toFixed(6)` on an exact value below 10^21: rounded to six decimals,
ties away from zero. -/
def jsToFixed6 : JSNum → String
  | .nan => "NaN"
  | .posInf => "Infinity"
  | .negInf => "-Infinity"
  | .fin q =>
    let n := (2 * q.num.natAbs * 10 ^ 6 + q.den) / (2 * q.den)
    let digits := Nat.toDigits 10 n
    let padded := List.replicate (7 - digits.length) '0' ++ digits
    let text := padded.take (padded.length - 6) ++ '.' :: padded.drop (padded.length - 6)
    if q.num < 0 then String.mk ('-' :: text) else String.mk text

/-- The conversion `String(x)` on an exact value, in plain decimal writing (the
exponent writing that JavaScript uses for very large and very small numbers is not
modelled; at most 30 decimals are written). -/
def jsNumToString : JSNum → String
  | .nan => "NaN"
  | .posInf => "Infinity"
  | .negInf => "-Infinity"
  | .fin q =>
    let whole := Nat.toDigits 10 (q.num.natAbs / q.den)
    let frac := fractionDigits q.den 30 (q.num.natAbs % q.den)
    let text := if frac = [] then whole else whole ++ '.' :: frac
    if q.num < 0 then String.mk ('-' :: text) else String.mk text

/-- The built-ins, on exact values. -/
def stdJS : JS where
  parseFloat := jsParseFloat
  toFixed6 := jsToFixed6
  numToString := jsNumToString

/-! ## The two halves of `parseCoordinates` -/

/-- Lines 8-15 of `parseCoordinates`: the trimmed texts before and after the first
comma, `none` where the function returns `null` before parsing a number. -/
def coordinateSides (input : String) : Option (String × String) :=
  if input = "" ∨ jsTrim input.data = [] then none
  else
    let cleanInput := collapseWhitespace false (jsTrim input.data)
    let commaIndex := cleanInput.indexOf ','
    if commaIndex = cleanInput.length then none
    else
      some (String.mk (jsTrim (cleanInput.take commaIndex)),
            String.mk (jsTrim (cleanInput.drop (commaIndex + 1))))

/-- Lines 23-26 of `parseCoordinates`: the test `firstIsLat && secondIsLng`. -/
def rangeTest (first second : JSNum) : Bool :=
  ((JSNum.fin (-90)).le first && first.le (JSNum.fin 90)) &&
    ((JSNum.fin (-180)).le second && second.le (JSNum.fin 180))

/-- Lines 20-30 of `parseCoordinates`: the result for the two parsed numbers. -/
def orderCoordinates (first second : JSNum) : Option LatLng :=
  if first.isNaN || second.isNaN then none
  else if rangeTest first second then some { lat := first, lng := second }
  else some { lat := second, lng := first }

/-! ## Shared helpers (lines 84-107) -/

/-- Lines 87-94: `getAdjacentHexagons(h3Index, radius)`; a thrown error gives `[]`. -/
def getAdjacentHexagons (h3 : H3) (h3Index : Cell) (radius : Nat) : List Cell :=
  match h3.gridDisk h3Index radius with
  | .ok cells => cells
  | .error _ => []

/-- Lines 99-107: `validateLocationInH3(lat, lng, h3Indices, resolution)`; a thrown
error gives `false`. -/
def validateLocationInH3 (h3 : H3) (lat lng : JSNum) (h3Indices : List Cell)
    (resolution : Int) : Bool :=
  match h3.latLngToCell lat lng resolution with
  | .ok currentH3Index => decide (currentH3Index ∈ h3Indices)
  | .error _ => false

/-! ## Merchant page: the selection (lines 113-439) -/

/-- The record stored per selected cell (lines 291-298 and 358-365), without the
Leaflet `layer` and `marker`. -/
structure HexData where
  h3Index : Cell
  resolution : Int
  lat : JSNum
  lng : JSNum
deriving DecidableEq

/-- The map `selectedH3Hexagons`: entries in insertion order. -/
abbrev Selection := List (Cell × HexData)

namespace Selection

/-- The list `Array.from(map.keys())`. -/
def keys (s : Selection) : List Cell := s.map Prod.fst

/-- The list `Array.from(map.values())`. -/
def values (s : Selection) : List HexData := s.map Prod.snd

/-- The property `map.size`. -/
def size (s : Selection) : Nat := s.length

/-- The method `map.has(k)`. -/
def has (s : Selection) (k : Cell) : Bool := decide (k ∈ s.keys)

/-- The method `map.get(k)`; `none` is `undefined`. -/
def get (s : Selection) (k : Cell) : Option HexData := s.lookup k

/-- The method `map.set(k, v)`: an existing key keeps its place and takes the new value,
a new key goes to the end. -/
def set (s : Selection) (k : Cell) (v : HexData) : Selection :=
  if s.has k then s.map (fun e => if e.1 = k then (k, v) else e) else s ++ [(k, v)]

/-- The method `map.delete(k)`. -/
def delete (s : Selection) (k : Cell) : Selection := s.filter (fun e => decide (e.1 ≠ k))

end Selection

/-- What `addH3Hexagon` tells the user: the alert it raises, or nothing when the cell
was stored. -/
inductive AddSignal where
  | invalidCoordinates
  | alreadySelected
  | error (message : String)
  | added (h3Index : Cell)
deriving DecidableEq

/-- Lines 247-311: `addH3Hexagon()`, on the values read from the form. -/
def addH3Hexagon (h3 : H3) (lat lng : JSNum) (resolution : Int) (sel : Selection) :
    Selection × AddSignal :=
  if lat.isNaN || lng.isNaN then (sel, .invalidCoordinates)
  else
    match h3.latLngToCell lat lng resolution with
    | .error e => (sel, .error e)
    | .ok h3Index =>
      if h3Index = "" then (sel, .error "conversion failed")
      else if sel.has h3Index then (sel, .alreadySelected)
      else
        match h3.cellToBoundary h3Index with
        | .error e => (sel, .error e)
        | .ok _ =>
          (sel.set h3Index
            { h3Index := h3Index, resolution := resolution, lat := lat, lng := lng },
           .added h3Index)

/-- Lines 330-369: the inner `neighbors.forEach`. The state is the map and the array
`addedHexagons`. A throw of `cellToLatLng` or `cellToBoundary` leaves the loop (it is
caught at line 370) and keeps what was stored so far. -/
def addNeighbors (h3 : H3) (resolution : Int) :
    List Cell → Selection × List Cell → Selection × List Cell
  | [], st => st
  | neighborIndex :: rest, (sel, addedHexagons) =>
    if sel.has neighborIndex then addNeighbors h3 resolution rest (sel, addedHexagons)
    else
      match h3.cellToLatLng neighborIndex with
      | .error _ => (sel, addedHexagons)
      | .ok center =>
        match h3.cellToBoundary neighborIndex with
        | .error _ => (sel, addedHexagons)
        | .ok _ =>
          addNeighbors h3 resolution rest
            (sel.set neighborIndex
              { h3Index := neighborIndex, resolution := resolution,
                lat := center.1, lng := center.2 },
             addedHexagons ++ [neighborIndex])

/-- Lines 326-373: the body run for one element of `currentIndices`. -/
def expandFrom (h3 : H3) (resolution : Int) (st : Selection × List Cell) (h3Index : Cell) :
    Selection × List Cell :=
  match h3.gridDisk h3Index 1 with
  | .error _ => st
  | .ok neighbors => addNeighbors h3 resolution neighbors st

/-- What `addAdjacentHexagons` tells the user. -/
inductive ExpandSignal where
  | needOneFirst
  | addedCount (n : Nat)
  | nothingNew
deriving DecidableEq

/-- Lines 313-385: `addAdjacentHexagons()`; `resolution` is the value read from the form
at line 319. Returns the map, the array `addedHexagons` and the alert. -/
def addAdjacentHexagons (h3 : H3) (resolution : Int) (sel : Selection) :
    Selection × List Cell × ExpandSignal :=
  if sel.size = 0 then (sel, [], .needOneFirst)
  else
    let currentIndices := sel.keys
    let r := currentIndices.foldl (expandFrom h3 resolution) (sel, [])
    if r.2.length > 0 then (r.1, r.2, .addedCount r.2.length) else (r.1, r.2, .nothingNew)

/-- Lines 387-396: `clearSelectedHexagons()`. -/
def clearSelectedHexagons (_sel : Selection) : Selection := []

/-- Lines 431-439: `removeH3Hexagon(h3Index)`. -/
def removeH3Hexagon (h3Index : Cell) (sel : Selection) : Selection :=
  match sel.get h3Index with
  | some _ => sel.delete h3Index
  | none => sel

/-! ## Merchant page: committing the selection (lines 441-546) -/

/-- The object kept under the key `lockedH3Data`, as `JSON.parse` returns it.
`h3Indices` is `some` exactly when the field is an array (the shape written by this
program); `h3Index` is the field of the older single-cell shape, `none` when absent. -/
structure LockedH3Data where
  h3Indices : Option (List Cell)
  h3Index : Option Cell
  resolution : Int
deriving DecidableEq

/-- The text fields of the merchant form that `saveMerchant` copies. -/
structure MerchantForm where
  merchantName : String
  merchantId : String
  phone : String
  email : String
  address : String
  businessType : String
  status : String
  notes : String
deriving DecidableEq

/-- The record `formData` of lines 455-467, one row of the merchants CSV. -/
structure MerchantRow where
  merchantName : String
  merchantId : String
  phone : String
  email : String
  address : String
  h3Indices : String
  h3Resolution : Int
  businessType : String
  status : String
  notes : String
  createdAt : String
deriving DecidableEq

/-- The two keys of `localStorage` the program uses. The CSV text is kept as the
rows it encodes (Papa Parse is outside the repository), the JSON text as the
object it encodes. -/
structure LocalStorage where
  merchantsCSV : Option (List MerchantRow)
  lockedH3Data : Option LockedH3Data
deriving DecidableEq

/-- What a commit tells the user: the alert of lines 446 and 532, or success. -/
inductive CommitSignal where
  | needSelection
  | committed
deriving DecidableEq

/-- Lines 441-504: `saveMerchant(event)`, up to the two writes to `localStorage`;
`createdAt` is the time stamp of line 466. The reset of the form and of the
selection two seconds later belongs to a later event. -/
def saveMerchant (sel : Selection) (form : MerchantForm) (createdAt : String)
    (ls : LocalStorage) : LocalStorage × CommitSignal :=
  match sel with
  | [] => (ls, .needSelection)
  | (_, firstH3) :: _ =>
    let h3Indices := sel.keys
    let formData : MerchantRow :=
      { merchantName := form.merchantName, merchantId := form.merchantId,
        phone := form.phone, email := form.email, address := form.address,
        h3Indices := String.intercalate "," h3Indices,
        h3Resolution := firstH3.resolution,
        businessType := form.businessType, status := form.status, notes := form.notes,
        createdAt := createdAt }
    let merchants :=
      match ls.merchantsCSV with
      | some rows => rows.filter (fun m => decide (m.merchantName ≠ ""))
      | none => []
    ({ merchantsCSV := some (merchants ++ [formData]),
       lockedH3Data :=
         some { h3Indices := some h3Indices, h3Index := none,
                resolution := firstH3.resolution } },
     .committed)

/-- Lines 530-546: `goToCustomerPage()`, up to the navigation. -/
def goToCustomerPage (sel : Selection) (ls : LocalStorage) : LocalStorage × CommitSignal :=
  match sel with
  | [] => (ls, .needSelection)
  | (_, firstH3) :: _ =>
    ({ ls with
       lockedH3Data :=
         some { h3Indices := some sel.keys, h3Index := none,
                resolution := firstH3.resolution } },
     .committed)

/-! ## Customer page (lines 552-888) -/

/-- The class and text of the element `validationStatus`, as far as these functions
set it. -/
inductive ValidationStatus where
  | hidden
  | noLockedArea
  | valid
  | invalid
  | locating
  | locationFailed
  | paymentPending
deriving DecidableEq

/-- The variables of the customer page and the parts of its document that
`validateLocation` reads or writes. An input element that is missing from the page
is `none`. -/
structure CustomerState where
  lockedH3Data : Option LockedH3Data
  currentLocation : Option LatLng
  isValidLocation : Bool
  customerLatitude : Option String
  customerLongitude : Option String
  customerCoordinates : String
  currentH3 : Option Cell
  validationStatus : ValidationStatus
deriving DecidableEq

/-- The customer page when it has just been opened (lines 552-558), with the given
contents of its inputs. -/
def CustomerState.fresh (latitude longitude : Option String) (coordinates : String) :
    CustomerState :=
  { lockedH3Data := none, currentLocation := none, isValidLocation := false,
    customerLatitude := latitude, customerLongitude := longitude,
    customerCoordinates := coordinates, currentH3 := none, validationStatus := .hidden }

/-- Lines 676-678 and 875-877: the cell list read off the stored object, whichever of
its two shapes it has; `filter(Boolean)` drops a missing or empty `h3Index`. -/
def lockedIndices (d : LockedH3Data) : List Cell :=
  match d.h3Indices with
  | some cells => cells
  | none =>
    match d.h3Index with
    | some c => if c = "" then [] else [c]
    | none => []

/-- Lines 664-693: `loadLockedH3Data()`; the second component is its return value.
Drawing the area and its caption is not modelled. -/
def loadLockedH3Data (ls : LocalStorage) (st : CustomerState) : CustomerState × Bool :=
  match ls.lockedH3Data with
  | none => ({ st with validationStatus := .noLockedArea }, false)
  | some stored => ({ st with lockedH3Data := some stored }, true)

/-- Lines 811-834: the coordinates `validateLocation` takes from the inputs, the two
separate fields first and the combined field (as it was on entry) second, together
with what it writes back to the inputs. -/
def readCustomerCoords (js : JS) (st : CustomerState) : CustomerState × Option LatLng :=
  let coordsInput := st.customerCoordinates
  let fromFields : Option LatLng :=
    match st.customerLatitude, st.customerLongitude with
    | some latValue, some lngValue =>
      if latValue ≠ "" ∧ lngValue ≠ "" then
        let lat := js.parseFloat latValue
        let lng := js.parseFloat lngValue
        if !lat.isNaN && !lng.isNaN then some { lat := lat, lng := lng } else none
      else none
    | _, _ => none
  match fromFields with
  | some coords =>
    ({ st with customerCoordinates := js.toFixed6 coords.lng ++ ", " ++ js.toFixed6 coords.lat },
     some coords)
  | none =>
    if coordsInput ≠ "" then
      match parseCoordinates js coordsInput with
      | some coords =>
        match st.customerLatitude, st.customerLongitude with
        | some _, some _ =>
          ({ st with customerLatitude := some (js.numToString coords.lat),
                     customerLongitude := some (js.numToString coords.lng) },
           some coords)
        | _, _ => (st, some coords)
      | none => (st, none)
    else (st, none)

/-- How a call of `validateLocation` ends. -/
inductive ValidateOutcome where
  | noLockedData
  | noCoordinates
  | threw (message : String)
  | finished
deriving DecidableEq

/-- Lines 811-887: `validateLocation()` once `lockedH3Data` is set. A throw of
`latLngToCell` at line 850 ends the call after `currentLocation` was assigned and
before `isValidLocation` is. -/
def validateLoaded (js : JS) (h3 : H3) (locked : LockedH3Data) (st : CustomerState) :
    CustomerState × ValidateOutcome :=
  match readCustomerCoords js st with
  | (st1, none) => (st1, .noCoordinates)
  | (st1, some coords) =>
    let st2 := { st1 with currentLocation := some coords }
    match h3.latLngToCell coords.lat coords.lng locked.resolution with
    | .error e => (st2, .threw e)
    | .ok currentH3Index =>
      let st3 := { st2 with currentH3 := some currentH3Index }
      let h3Indices := lockedIndices locked
      if currentH3Index ∈ h3Indices then
        ({ st3 with validationStatus := .valid, isValidLocation := true }, .finished)
      else
        ({ st3 with validationStatus := .invalid, isValidLocation := false }, .finished)

/-- Lines 806-888: `validateLocation()`. -/
def validateLocation (js : JS) (h3 : H3) (ls : LocalStorage) (st : CustomerState) :
    CustomerState × ValidateOutcome :=
  match st.lockedH3Data with
  | some locked => validateLoaded js h3 locked st
  | none =>
    match loadLockedH3Data ls st with
    | (st1, false) => (st1, .noLockedData)
    | (st1, true) =>
      match st1.lockedH3Data with
      | some locked => validateLoaded js h3 locked st1
      | none => (st1, .noLockedData)

/-- How the browser answers `navigator.geolocation.getCurrentPosition`: the interface
is missing, a position is delivered, or an error is. -/
inductive GeoAnswer where
  | unsupported
  | position (lat lng : JSNum)
  | failed (message : String)
deriving DecidableEq

/-- How `getCurrentLocation` ends: with the alert that the browser cannot locate, with
the failure message of the browser, with an error thrown in the callback, or in
`validateLocation`. -/
inductive LocateOutcome where
  | unsupported
  | failed
  | threw (message : String)
  | validated (outcome : ValidateOutcome)
deriving DecidableEq

/-- Lines 735-804: `getCurrentLocation()` together with the callback that runs when the
browser answers. A throw at line 770 (of `latLngToCell`, or of the read of
`lockedH3Data.resolution` when no area is loaded) ends the callback after
`currentLocation` and the inputs were assigned. -/
def getCurrentLocation (js : JS) (h3 : H3) (ls : LocalStorage) (st : CustomerState)
    (answer : GeoAnswer) : CustomerState × LocateOutcome :=
  match answer with
  | .unsupported => (st, .unsupported)
  | .failed _ => ({ st with validationStatus := .locationFailed }, .failed)
  | .position lat lng =>
    let st1 : CustomerState :=
      { st with
        validationStatus := .locating,
        currentLocation := some { lat := lat, lng := lng },
        customerCoordinates := js.toFixed6 lng ++ ", " ++ js.toFixed6 lat,
        customerLatitude := st.customerLatitude.map (fun _ => js.toFixed6 lat),
        customerLongitude := st.customerLongitude.map (fun _ => js.toFixed6 lng) }
    match st1.lockedH3Data with
    | none => (st1, .threw "lockedH3Data is null")
    | some locked =>
      match h3.latLngToCell lat lng locked.resolution with
      | .error e => (st1, .threw e)
      | .ok currentH3Index =>
        match validateLocation js h3 ls { st1 with currentH3 := some currentH3Index } with
        | (st2, .threw e) => (st2, .threw e)
        | (st2, outcome) => (st2, .validated outcome)

/-- How a call of `processPayment` ends: with the alert asking for a location, in
`proceedWithPayment`, with the timer of line 929 set, or with an error thrown by
`validateLocation`. -/
inductive PaymentOutcome where
  | needLocation
  | proceeded
  | timerSet
  | threw (message : String)
deriving DecidableEq

/-- Lines 944-956: `proceedWithPayment()`, up to its timer. -/
def proceedWithPayment (st : CustomerState) : CustomerState :=
  { st with validationStatus := .paymentPending }

/-- Lines 894-918 of `processPayment`: the coordinates it takes from the inputs when
`currentLocation` is not set. -/
def paymentCoords (js : JS) (st : CustomerState) : Option LatLng :=
  let fromFields : Option LatLng :=
    match st.customerLatitude, st.customerLongitude with
    | some latValue, some lngValue =>
      if latValue ≠ "" ∧ lngValue ≠ "" then
        let lat := js.parseFloat latValue
        let lng := js.parseFloat lngValue
        if !lat.isNaN && !lng.isNaN then some { lat := lat, lng := lng } else none
      else none
    | _, _ => none
  match fromFields with
  | some coords => some coords
  | none =>
    if st.customerCoordinates ≠ "" then parseCoordinates js st.customerCoordinates else none

/-- Lines 920-941 of `processPayment`, for the coordinates `coords` chosen before. -/
def payFor (js : JS) (h3 : H3) (ls : LocalStorage) (st : CustomerState) (coords : LatLng) :
    CustomerState × PaymentOutcome :=
  let locationChanged :=
    match st.currentLocation with
    | none => true
    | some current => coords.lat.strictNe current.lat || coords.lng.strictNe current.lng
  if !st.isValidLocation || locationChanged then
    match validateLocation js h3 ls { st with currentLocation := some coords } with
    | (st1, .threw e) => (st1, .threw e)
    | (st1, _) => (st1, .timerSet)
  else (proceedWithPayment st, .proceeded)

/-- Lines 890-942: `processPayment()`. -/
def processPayment (js : JS) (h3 : H3) (ls : LocalStorage) (st : CustomerState) :
    CustomerState × PaymentOutcome :=
  match st.currentLocation with
  | some coords => payFor js h3 ls st coords
  | none =>
    match paymentCoords js st with
    | none => (st, .needLocation)
    | some coords => payFor js h3 ls st coords

/-- Lines 929-936: the timer callback of `processPayment`; `true` when it goes on to
`proceedWithPayment`, `false` when it raises the alert. -/
def paymentTimer (st : CustomerState) : CustomerState × Bool :=
  if !st.isValidLocation then (st, false) else (proceedWithPayment st, true)

/-! ## Merchant page: the display of the selection (lines 398-429) -/

/-- The parts of the merchant page that `updateH3Display` writes: the texts `h3Count`
and `h3Resolution` (`none` is the text `-`), whether the block `h3Info` is shown, the
cells listed in `h3List`, and the two hidden inputs. -/
structure H3Display where
  h3Count : Nat
  h3Resolution : Option Int
  h3InfoShown : Bool
  h3List : List Cell
  h3IndicesInput : String
  h3ResolutionInput : Option Int
deriving DecidableEq

/-- Lines 398-429: `updateH3Display()`. With no cell selected it returns at line 410,
before the hidden inputs are written. -/
def updateH3Display (sel : Selection) (shown : H3Display) : H3Display :=
  match sel.values with
  | [] =>
    { shown with h3Count := 0, h3Resolution := none, h3List := [], h3InfoShown := false }
  | first :: _ =>
    { h3Count := sel.size,
      h3Resolution := some first.resolution,
      h3InfoShown := true,
      h3List := sel.keys,
      h3IndicesInput := String.intercalate "," sel.keys,
      h3ResolutionInput := some first.resolution }

/-! ## The API variant of the commit (`scripts_api_patch.js`, `api_client.js`) -/

/-- The method `split(',')` on the characters of a string: the pieces between the
commas, one more than there are commas. -/
def splitAtCommas : List Char → List (List Char)
  | [] => [[]]
  | c :: cs =>
    if c = ',' then [] :: splitAtCommas cs
    else
      match splitAtCommas cs with
      | piece :: pieces => (c :: piece) :: pieces
      | [] => [[c]]

/-- The method `split(',')` of a string. -/
def jsSplitComma (s : String) : List String :=
  (splitAtCommas s.data).map String.mk

/-- The method `join(',')` of an array of strings. -/
def jsJoinComma (cells : List String) : String :=
  String.intercalate "," cells

/-- The record `formData` of `scripts_api_patch.js`, lines 23-34. -/
structure ApiFormData where
  merchantName : String
  merchantId : String
  phone : String
  email : String
  address : String
  h3Indices : String
  h3Resolution : Int
  businessType : String
  status : String
  notes : String
deriving DecidableEq

/-- Lines 9-34 of `scripts_api_patch.js`: the record that the replaced `saveMerchant`
hands to `saveMerchantToAPI`; `none` when no cell is selected and the alert is raised
instead. -/
def apiFormData (sel : Selection) (form : MerchantForm) : Option ApiFormData :=
  match sel with
  | [] => none
  | (_, firstH3) :: _ =>
    some
      { merchantName := form.merchantName, merchantId := form.merchantId,
        phone := form.phone, email := form.email, address := form.address,
        h3Indices := jsJoinComma sel.keys,
        h3Resolution := firstH3.resolution,
        businessType := form.businessType, status := form.status, notes := form.notes }

/-- The value `s || null` of a string. -/
def orNull (s : String) : Option String := if s = "" then none else some s

/-- The body of the request of `saveMerchantToAPI` (`api_client.js`, lines 18-29). -/
structure MerchantRequest where
  merchant_name : String
  merchant_id : String
  phone : String
  email : Option String
  address : Option String
  business_type : Option String
  status : String
  notes : Option String
  h3_indices : List String
  h3_resolution : Int
deriving DecidableEq

/-- Lines 18-29 of `api_client.js`: the body `saveMerchantToAPI` sends. `parseInt` of
the resolution, which is an integer here, is that integer. -/
def saveMerchantToAPI (merchantData : ApiFormData) : MerchantRequest :=
  { merchant_name := merchantData.merchantName,
    merchant_id := merchantData.merchantId,
    phone := merchantData.phone,
    email := orNull merchantData.email,
    address := orNull merchantData.address,
    business_type := orNull merchantData.businessType,
    status := if merchantData.status = "" then "active" else merchantData.status,
    notes := orNull merchantData.notes,
    h3_indices := jsSplitComma merchantData.h3Indices,
    h3_resolution := merchantData.h3Resolution }

/-! ## Merchant page: the handlers of the coordinates input (lines 121-168) -/

/-- The three inputs `latitude`, `longitude` and `coordinates` of the merchant form. -/
structure MerchantFields where
  latitude : String
  longitude : String
  coordinates : String
deriving DecidableEq

/-- Lines 158-168: the click on the map at (`clickedLat`, `clickedLng`). -/
def merchantMapClick (js : JS) (clickedLat clickedLng : JSNum) (_f : MerchantFields) :
    MerchantFields :=
  { latitude := js.toFixed6 clickedLat,
    longitude := js.toFixed6 clickedLng,
    coordinates := js.toFixed6 clickedLng ++ ", " ++ js.toFixed6 clickedLat }

/-- Lines 135-142 (and 124-133, 144-154): the `blur`, `paste` and `Enter` handlers of
the `coordinates` input. -/
def coordinatesEntered (js : JS) (f : MerchantFields) : MerchantFields :=
  match parseCoordinates js f.coordinates with
  | some coords =>
    { f with latitude := js.numToString coords.lat, longitude := js.numToString coords.lng }
  | none => f

/-! ## Notions used to state the properties -/

/-- The selections the merchant page can hold: the empty map it starts with, and what
the four editing functions make of a selection it can hold. -/
inductive Reachable (h3 : H3) : Selection → Prop where
  | start : Reachable h3 []
  | add (lat lng : JSNum) (resolution : Int) (sel : Selection) :
      Reachable h3 sel → Reachable h3 (addH3Hexagon h3 lat lng resolution sel).1
  | expand (resolution : Int) (sel : Selection) :
      Reachable h3 sel → Reachable h3 (addAdjacentHexagons h3 resolution sel).1
  | remove (h3Index : Cell) (sel : Selection) :
      Reachable h3 sel → Reachable h3 (removeH3Hexagon h3Index sel)
  | clear (sel : Selection) :
      Reachable h3 sel → Reachable h3 (clearSelectedHexagons sel)

/-- A cell that the expansion can store: `cellToLatLng` and `cellToBoundary` both
return on it. -/
def drawable (h3 : H3) (c : Cell) : Bool :=
  succeeds (h3.cellToLatLng c) && succeeds (h3.cellToBoundary c)

/-- The neighbours of `c` that the loop of `addAdjacentHexagons` gets to when the cells
`selected` were selected on entry: `gridDisk c 1` up to its first cell that is neither
selected nor drawable, and nothing when `gridDisk` throws. -/
def reached (h3 : H3) (selected : List Cell) (c : Cell) : List Cell :=
  match h3.gridDisk c 1 with
  | .error _ => []
  | .ok neighbors => neighbors.takeWhile (fun n => decide (n ∈ selected) || drawable h3 n)

/-- The grid primitives do not throw while the cells `cells` are expanded: `gridDisk`
returns on each of them, and every cell it returns that is not among `cells` is
drawable. -/
def ExpandsCleanly (h3 : H3) (cells : List Cell) : Prop :=
  ∀ s ∈ cells, ∃ ns, h3.gridDisk s 1 = .ok ns ∧ ∀ n ∈ ns, n ∉ cells → drawable h3 n = true

/-- The older stored shape: one cell under `h3Index`, no `h3Indices` array. -/
def legacyLocked (c : Cell) (r : Int) : LockedH3Data :=
  { h3Indices := none, h3Index := some c, resolution := r }

/-- The stored shape this program writes: the array `h3Indices`. -/
def listLocked (cells : List Cell) (r : Int) : LockedH3Data :=
  { h3Indices := some cells, h3Index := none, resolution := r }

/-- The number `x` is finite and lies in the interval from `lo` to `hi`. -/
def InRange (lo hi : ℚ) (x : JSNum) : Prop :=
  ∃ q, x = .fin q ∧ lo ≤ q ∧ q ≤ hi

/-- The pair (`first`, `second`) read as (latitude, longitude) is a coordinate:
`first` lies in [-90, 90] and `second` in [-180, 180]. -/
def ValidOrdering (first second : JSNum) : Prop :=
  InRange (-90) 90 first ∧ InRange (-180) 180 second

/-- The two sides of the text `text`, before and after its first comma, are read by
`parseFloat` as the values `a` and `b`. -/
def SidesParse (js : JS) (text : String) (a b : JSNum) : Prop :=
  ∃ l r, coordinateSides text = some (l, r) ∧ js.parseFloat l = a ∧ js.parseFloat r = b

/-- The text `lat, lng` of a pair, each number written by `String(x)`. -/
def formatPair (js : JS) (p : LatLng) : String :=
  js.numToString p.lat ++ ", " ++ js.numToString p.lng

/-! ## A small grid fragment used to evaluate the functions -/

/-- The number `n / 10`. -/
def tenths (n : Int) : JSNum := .fin (mkRat n 10)

/-- The number `n / 100`. -/
def hundredths (n : Int) : JSNum := .fin (mkRat n 100)

/-- The centre of each cell of the fragment; the rows run from (24.70, 46.60) in steps
of 0.05 degrees. -/
def demoCenter (c : Cell) : Option (JSNum × JSNum) :=
  if c = "89-a" ∨ c = "8a-a" then some (hundredths 2470, hundredths 4660)
  else if c = "89-b" ∨ c = "8a-b" then some (hundredths 2475, hundredths 4665)
  else if c = "89-c" ∨ c = "8a-c" then some (hundredths 2480, hundredths 4670)
  else if c = "89-d" then some (hundredths 2485, hundredths 4675)
  else if c = "89-e" then some (hundredths 2490, hundredths 4680)
  else none

/-- A fragment of a grid, given by tables: at resolution 9 a row of five cells
`89-a` .. `89-e`, at resolution 10 a row of three cells `8a-a` .. `8a-c`. The point
(24.7, 46.6) lies in the first cell of each row, (24.8, 46.7) in the third; every other
input is refused. `gridDisk c 1` lists the cell first, then its neighbours in the row;
the boundary of a cell is reduced to its centre. -/
def demoH3 : H3 where
  latLngToCell lat lng resolution :=
    if lat = tenths 247 ∧ lng = tenths 466 then
      if resolution = 9 then .ok "89-a"
      else if resolution = 10 then .ok "8a-a"
      else .error "resolution out of range"
    else if lat = tenths 248 ∧ lng = tenths 467 then
      if resolution = 9 then .ok "89-c"
      else if resolution = 10 then .ok "8a-c"
      else .error "resolution out of range"
    else .error "coordinates out of range"
  gridDisk c k :=
    if k = 1 then
      if c = "89-a" then .ok ["89-a", "89-b"]
      else if c = "89-b" then .ok ["89-b", "89-a", "89-c"]
      else if c = "89-c" then .ok ["89-c", "89-b", "89-d"]
      else if c = "89-d" then .ok ["89-d", "89-c", "89-e"]
      else if c = "89-e" then .ok ["89-e", "89-d"]
      else if c = "8a-a" then .ok ["8a-a", "8a-b"]
      else if c = "8a-b" then .ok ["8a-b", "8a-a", "8a-c"]
      else if c = "8a-c" then .ok ["8a-c", "8a-b"]
      else .error "invalid cell"
    else .error "ring size not tabulated"
  cellToLatLng c :=
    match demoCenter c with
    | some p => .ok p
    | none => .error "invalid cell"
  cellToBoundary c :=
    match demoCenter c with
    | some p => .ok [p]
    | none => .error "invalid cell"

/-- The built-ins on the four texts and numbers the evaluations below use. -/
def demoJS : JS where
  parseFloat s :=
    if s = "24.7" then tenths 247
    else if s = "46.6" then tenths 466
    else if s = "24.8" then tenths 248
    else if s = "46.7" then tenths 467
    else .nan
  toFixed6 x :=
    if x = tenths 247 then "24.700000"
    else if x = tenths 466 then "46.600000"
    else if x = tenths 248 then "24.800000"
    else if x = tenths 467 then "46.700000"
    else "NaN"
  numToString x :=
    if x = tenths 247 then "24.7"
    else if x = tenths 466 then "46.6"
    else if x = tenths 248 then "24.8"
    else if x = tenths 467 then "46.7"
    else "NaN"

/-- An empty `localStorage`. -/
def emptyStorage : LocalStorage := { merchantsCSV := none, lockedH3Data := none }

/-- The selection after one add of (24.7, 46.6) at resolution 9 on the grid fragment. -/
def demoSelection9 : Selection :=
  (addH3Hexagon demoH3 (tenths 247) (tenths 466) 9 []).1

/-- The selection after a further add of (24.8, 46.7) at resolution 10. -/
def demoMixedSelection : Selection :=
  (addH3Hexagon demoH3 (tenths 248) (tenths 467) 10 demoSelection9).1

/-- A filled merchant form. -/
def demoForm : MerchantForm :=
  { merchantName := "Shop", merchantId := "M-1", phone := "0500000000", email := "",
    address := "", businessType := "", status := "active", notes := "" }

/-- The storage after the commit of the selection holding `89-a` at resolution 9. -/
def demoLockedStorage : LocalStorage :=
  (goToCustomerPage demoSelection9 emptyStorage).1

/-- The customer page after a validation of (24.7, 46.6) against that storage. -/
def demoValidated : CustomerState :=
  (validateLocation stdJS demoH3 demoLockedStorage
    (CustomerState.fresh (some "24.7") (some "46.6") "")).1

/-- The call of `validateLocation` after the latitude input was changed to the text
`Infinity`. -/
def demoAfterFailure : CustomerState × ValidateOutcome :=
  validateLocation stdJS demoH3 demoLockedStorage
    { demoValidated with customerLatitude := some "Infinity" }

/-- The selection built by the adds of `demoMixedSelection` in the other order:
(24.8, 46.7) at resolution 10 first, (24.7, 46.6) at resolution 9 second. -/
def demoMixedSelectionRev : Selection :=
  (addH3Hexagon demoH3 (tenths 247) (tenths 466) 9
    (addH3Hexagon demoH3 (tenths 248) (tenths 467) 10 []).1).1

/-- The selection holding `89-a` (recorded with resolution 9) after two expansions made
while the form shows resolution 10. -/
def demoExpandedAt10 : Selection :=
  (addAdjacentHexagons demoH3 10 (addAdjacentHexagons demoH3 10 demoSelection9).1).1

/-- That selection after the removal of `89-a`. -/
def demoExpandedTrimmed : Selection :=
  removeH3Hexagon "89-a" demoExpandedAt10

/-- A display of the merchant page before any cell is selected. -/
def emptyDisplay : H3Display :=
  { h3Count := 0, h3Resolution := none, h3InfoShown := false, h3List := [],
    h3IndicesInput := "", h3ResolutionInput := none }

/-! ## Lemmas on the selection and on the expansion loop -/

namespace Selection

@[simp] theorem keys_nil : keys ([] : Selection) = [] := rfl

@[simp] theorem keys_cons (e : Cell × HexData) (s : Selection) :
    keys (e :: s) = e.1 :: keys s := rfl

@[simp] theorem keys_append (s t : Selection) : keys (s ++ t) = keys s ++ keys t := by
  simp [keys]

theorem has_iff (s : Selection) (k : Cell) : s.has k = true ↔ k ∈ s.keys := by
  simp [has]

theorem set_of_not_has (s : Selection) (k : Cell) (v : HexData) (h : s.has k = false) :
    s.set k v = s ++ [(k, v)] := by
  simp [set, h]

end Selection

theorem addNeighbors_spec (h3 : H3) (resolution : Int) (ns : List Cell) :
    ∀ (sel : Selection) (added : List Cell), ∃ fresh : Selection,
      addNeighbors h3 resolution ns (sel, added) = (sel ++ fresh, added ++ fresh.keys) ∧
      fresh.keys.Nodup ∧
      (∀ c ∈ fresh.keys, c ∉ sel.keys ∧ drawable h3 c = true) ∧
      (∀ e ∈ fresh, e.2.h3Index = e.1 ∧ e.2.resolution = resolution) ∧
      (∀ c, c ∈ fresh.keys →
        c ∈ ns.takeWhile (fun n => decide (n ∈ sel.keys) || drawable h3 n)) ∧
      (∀ c, c ∈ ns.takeWhile (fun n => decide (n ∈ sel.keys) || drawable h3 n) →
        c ∈ sel.keys ∨ c ∈ fresh.keys) := by
  induction ns with
  | nil =>
    intro sel added
    exact ⟨[], by simp [addNeighbors]⟩
  | cons n rest ih =>
    intro sel added
    by_cases hn : sel.has n = true
    · obtain ⟨fresh, h1, h2, h3', h4, h5, h6⟩ := ih sel added
      refine ⟨fresh, ?_, h2, h3', h4, ?_, ?_⟩
      · simp [addNeighbors, hn, h1]
      · intro c hc
        have hmem : n ∈ sel.keys := (Selection.has_iff sel n).1 hn
        simp only [List.takeWhile_cons, hmem, decide_True, Bool.true_or, if_true]
        exact List.mem_cons_of_mem _ (h5 c hc)
      · intro c hc
        have hmem : n ∈ sel.keys := (Selection.has_iff sel n).1 hn
        simp only [List.takeWhile_cons, hmem, decide_True, Bool.true_or, if_true,
          List.mem_cons] at hc
        rcases hc with rfl | hc
        · exact Or.inl hmem
        · exact h6 c hc
    · have hn' : sel.has n = false := by simpa using hn
      have hnot : n ∉ sel.keys := fun h => hn ((Selection.has_iff sel n).2 h)
      cases hll : h3.cellToLatLng n with
      | error e =>
        refine ⟨[], ?_, by simp, by simp, by simp, by simp, ?_⟩
        · simp [addNeighbors, hn', hll]
        · intro c hc
          simp [List.takeWhile_cons, hnot, drawable, hll, succeeds] at hc
      | ok center =>
        cases hb : h3.cellToBoundary n with
        | error e =>
          refine ⟨[], ?_, by simp, by simp, by simp, by simp, ?_⟩
          · simp [addNeighbors, hn', hll, hb]
          · intro c hc
            simp [List.takeWhile_cons, hnot, drawable, hll, hb, succeeds] at hc
        | ok bd =>
          have hd : drawable h3 n = true := by simp [drawable, hll, hb, succeeds]
          obtain ⟨d, hdef⟩ : ∃ d : HexData, d = ⟨n, resolution, center.1, center.2⟩ :=
            ⟨_, rfl⟩
          have hEq : (fun m => decide (m ∈ sel.keys) || drawable h3 m) =
              (fun m => decide (m ∈ (sel ++ [(n, d)]).keys) || drawable h3 m) := by
            funext m
            by_cases hm : m = n
            · subst hm; simp [hd]
            · simp [hm]
          obtain ⟨fresh, h1, h2, h3', h4, h5, h6⟩ := ih (sel ++ [(n, d)]) (added ++ [n])
          rw [← hEq] at h5 h6
          refine ⟨(n, d) :: fresh, ?_, ?_, ?_, ?_, ?_, ?_⟩
          · simp [addNeighbors, hn', hll, hb, Selection.set_of_not_has, ← hdef, h1]
          · simp only [Selection.keys_cons, List.nodup_cons]
            refine ⟨fun hmem => ?_, h2⟩
            have := (h3' n hmem).1
            simp at this
          · intro c hc
            simp only [Selection.keys_cons, List.mem_cons] at hc
            rcases hc with rfl | hc
            · exact ⟨hnot, hd⟩
            · have := h3' c hc
              refine ⟨fun hmem => this.1 ?_, this.2⟩
              simp [hmem]
          · intro e he
            simp only [List.mem_cons] at he
            rcases he with rfl | he
            · simp [hdef]
            · exact h4 e he
          · intro c hc
            simp only [List.takeWhile_cons, hd, Bool.or_true, if_true, List.mem_cons]
            simp only [Selection.keys_cons, List.mem_cons] at hc
            rcases hc with rfl | hc
            · exact Or.inl rfl
            · exact Or.inr (h5 c hc)
          · intro c hc
            simp only [List.takeWhile_cons, hd, Bool.or_true, if_true, List.mem_cons] at hc
            rcases hc with rfl | hc
            · right; simp
            · rcases h6 c hc with h | h
              · simp only [Selection.keys_append, Selection.keys_cons, Selection.keys_nil,
                  List.mem_append, List.mem_singleton] at h
                rcases h with h | h
                · exact Or.inl h
                · right; simp [h]
              · right; simp [h]

theorem expand_fold_spec (h3 : H3) (resolution : Int) (sel : Selection) (cs : List Cell) :
    ∀ acc : Selection, acc.keys.Nodup →
      (∀ c ∈ acc.keys, c ∉ sel.keys ∧ drawable h3 c = true) →
      (∀ e ∈ acc, e.2.h3Index = e.1 ∧ e.2.resolution = resolution) →
      ∃ out : Selection,
        cs.foldl (expandFrom h3 resolution) (sel ++ acc, acc.keys) = (sel ++ out, out.keys) ∧
        out.keys.Nodup ∧
        (∀ c ∈ out.keys, c ∉ sel.keys ∧ drawable h3 c = true) ∧
        (∀ e ∈ out, e.2.h3Index = e.1 ∧ e.2.resolution = resolution) ∧
        (∀ c, c ∈ out.keys ↔
          c ∉ sel.keys ∧ (c ∈ acc.keys ∨ ∃ s ∈ cs, c ∈ reached h3 sel.keys s)) := by
  induction cs with
  | nil =>
    intro acc hnd hfresh hmeta
    refine ⟨acc, rfl, hnd, hfresh, hmeta, fun c => ?_⟩
    constructor
    · intro hc
      exact ⟨(hfresh c hc).1, Or.inl hc⟩
    · rintro ⟨_, hc | ⟨s, hs, _⟩⟩
      · exact hc
      · simp at hs
  | cons s rest ih =>
    intro acc hnd hfresh hmeta
    have hEq : (fun m => decide (m ∈ (sel ++ acc).keys) || drawable h3 m) =
        (fun m => decide (m ∈ sel.keys) || drawable h3 m) := by
      funext m
      by_cases hm : m ∈ acc.keys
      · simp [hm, (hfresh m hm).2]
      · simp [hm]
    cases hg : h3.gridDisk s 1 with
    | error e =>
      obtain ⟨out, h1, h2, h3', h4, h5⟩ := ih acc hnd hfresh hmeta
      refine ⟨out, ?_, h2, h3', h4, fun c => ?_⟩
      · simp [List.foldl_cons, expandFrom, hg, h1]
      · rw [h5 c]
        have : reached h3 sel.keys s = [] := by simp [reached, hg]
        simp [this]
    | ok ns =>
      obtain ⟨fresh, g1, g2, g3, g4, g5, g6⟩ :=
        addNeighbors_spec h3 resolution ns (sel ++ acc) acc.keys
      rw [hEq] at g5 g6
      have hreach : reached h3 sel.keys s =
          ns.takeWhile (fun n => decide (n ∈ sel.keys) || drawable h3 n) := by
        simp [reached, hg]
      have hnd' : (acc ++ fresh).keys.Nodup := by
        rw [Selection.keys_append]
        refine List.Nodup.append hnd g2 ?_
        intro c hc1 hc2
        exact (g3 c hc2).1 (by simp [hc1])
      have hfresh' : ∀ c ∈ (acc ++ fresh).keys, c ∉ sel.keys ∧ drawable h3 c = true := by
        intro c hc
        simp only [Selection.keys_append, List.mem_append] at hc
        rcases hc with hc | hc
        · exact hfresh c hc
        · refine ⟨fun hmem => (g3 c hc).1 (by simp [hmem]), (g3 c hc).2⟩
      have hmeta' : ∀ e ∈ acc ++ fresh, e.2.h3Index = e.1 ∧ e.2.resolution = resolution := by
        intro e he
        rcases List.mem_append.1 he with he | he
        · exact hmeta e he
        · exact g4 e he
      obtain ⟨out, h1, h2, h3', h4, h5⟩ := ih (acc ++ fresh) hnd' hfresh' hmeta'
      refine ⟨out, ?_, h2, h3', h4, fun c => ?_⟩
      · simp only [List.foldl_cons, expandFrom, hg, g1]
        simpa [List.append_assoc] using h1
      · rw [h5 c]
        constructor
        · rintro ⟨hns, hc | ⟨t, ht, hct⟩⟩
          · simp only [Selection.keys_append, List.mem_append] at hc
            rcases hc with hc | hc
            · exact ⟨hns, Or.inl hc⟩
            · exact ⟨hns, Or.inr ⟨s, List.mem_cons_self _ _, hreach ▸ g5 c hc⟩⟩
          · exact ⟨hns, Or.inr ⟨t, List.mem_cons_of_mem _ ht, hct⟩⟩
        · rintro ⟨hns, hc | ⟨t, ht, hct⟩⟩
          · exact ⟨hns, Or.inl (by simp [hc])⟩
          · rcases List.mem_cons.1 ht with rfl | ht
            · rw [hreach] at hct
              rcases g6 c hct with h | h
              · simp only [Selection.keys_append, List.mem_append] at h
                rcases h with h | h
                · exact absurd h hns
                · exact ⟨hns, Or.inl (by simp [h])⟩
              · exact ⟨hns, Or.inl (by simp [h])⟩
            · exact ⟨hns, Or.inr ⟨t, ht, hct⟩⟩

theorem addAdjacentHexagons_spec (h3 : H3) (resolution : Int) (sel : Selection)
    (hne : sel ≠ []) :
    ∃ out : Selection,
      (addAdjacentHexagons h3 resolution sel).1 = sel ++ out ∧
      (addAdjacentHexagons h3 resolution sel).2.1 = out.keys ∧
      out.keys.Nodup ∧
      (∀ c ∈ out.keys, c ∉ sel.keys ∧ drawable h3 c = true) ∧
      (∀ e ∈ out, e.2.h3Index = e.1 ∧ e.2.resolution = resolution) ∧
      (∀ c, c ∈ out.keys ↔ c ∉ sel.keys ∧ ∃ s ∈ sel.keys, c ∈ reached h3 sel.keys s) := by
  obtain ⟨out, h1, h2, h3', h4, h5⟩ :=
    expand_fold_spec h3 resolution sel sel.keys [] (by simp) (by simp) (by simp)
  have hsize : sel.size ≠ 0 := by
    cases sel with
    | nil => exact absurd rfl hne
    | cons e t => simp [Selection.size]
  simp only [List.append_nil, Selection.keys_nil] at h1
  refine ⟨out, ?_, ?_, h2, h3', h4, fun c => ?_⟩
  · simp only [addAdjacentHexagons, hsize, if_false, h1]
    split <;> rfl
  · simp only [addAdjacentHexagons, hsize, if_false, h1]
    split <;> rfl
  · rw [h5 c]
    simp

theorem reached_of_clean (h3 : H3) (cells : List Cell) (hclean : ExpandsCleanly h3 cells)
    (s : Cell) (hs : s ∈ cells) :
    ∃ ns, h3.gridDisk s 1 = .ok ns ∧ reached h3 cells s = ns := by
  obtain ⟨ns, hg, hd⟩ := hclean s hs
  refine ⟨ns, hg, ?_⟩
  simp only [reached, hg]
  rw [List.takeWhile_eq_self_iff]
  intro n hn
  by_cases hm : n ∈ cells
  · simp [hm]
  · simp [hd n hn hm]

theorem addAdjacentHexagons_clean (h3 : H3) (resolution : Int) (sel : Selection)
    (hne : sel ≠ []) (hclean : ExpandsCleanly h3 sel.keys) :
    ∃ out : Selection,
      (addAdjacentHexagons h3 resolution sel).1 = sel ++ out ∧
      (addAdjacentHexagons h3 resolution sel).2.1 = out.keys ∧
      out.keys.Nodup ∧
      (∀ c ∈ out.keys, c ∉ sel.keys ∧ drawable h3 c = true) ∧
      (∀ c, c ∈ out.keys ↔
        c ∉ sel.keys ∧ ∃ s ∈ sel.keys, ∃ ns, h3.gridDisk s 1 = .ok ns ∧ c ∈ ns) := by
  obtain ⟨out, h1, h2, h3', h4, _, h6⟩ := addAdjacentHexagons_spec h3 resolution sel hne
  refine ⟨out, h1, h2, h3', h4, fun c => ?_⟩
  rw [h6 c]
  constructor
  · rintro ⟨hns, s, hs, hc⟩
    obtain ⟨ns, hg, hr⟩ := reached_of_clean h3 sel.keys hclean s hs
    exact ⟨hns, s, hs, ns, hg, hr ▸ hc⟩
  · rintro ⟨hns, s, hs, ns, hg, hc⟩
    obtain ⟨ns', hg', hr⟩ := reached_of_clean h3 sel.keys hclean s hs
    rw [hg] at hg'
    cases hg'
    exact ⟨hns, s, hs, hr ▸ hc⟩

/-! ## Lemmas on validation, adds and reachable selections -/

/-- The coordinates read from the inputs do not depend on `lockedH3Data`. -/
theorem readCustomerCoords_locked (js : JS) (st : CustomerState) (d : Option LockedH3Data) :
    readCustomerCoords js { st with lockedH3Data := d } =
      ({ (readCustomerCoords js st).1 with lockedH3Data := d }, (readCustomerCoords js st).2) := by
  simp only [readCustomerCoords]
  repeat (first | rfl | split)

theorem validateLoaded_of_cell (js : JS) (h3 : H3) (locked : LockedH3Data)
    (st : CustomerState) (lat lng : JSNum) (c : Cell)
    (hcoords : (readCustomerCoords js st).2 = some { lat := lat, lng := lng })
    (hcell : h3.latLngToCell lat lng locked.resolution = .ok c) :
    (validateLoaded js h3 locked st).1.isValidLocation = decide (c ∈ lockedIndices locked) ∧
    (validateLoaded js h3 locked st).1.currentH3 = some c ∧
    (validateLoaded js h3 locked st).1.currentLocation = some { lat := lat, lng := lng } ∧
    (validateLoaded js h3 locked st).2 = .finished ∧
    (validateLoaded js h3 locked st).1.validationStatus =
      (if c ∈ lockedIndices locked then .valid else .invalid) := by
  rcases hr : readCustomerCoords js st with ⟨st1, oc⟩
  rw [hr] at hcoords
  simp only at hcoords
  subst hcoords
  simp only [validateLoaded, hr, hcell]
  by_cases hm : c ∈ lockedIndices locked
  · simp [hm]
  · simp [hm]

/-- The locked geofence `validateLocation` works with: the page variable when it is
set, the stored object otherwise. -/
theorem validateLocation_of_cell (js : JS) (h3 : H3) (ls : LocalStorage)
    (st : CustomerState) (locked : LockedH3Data) (lat lng : JSNum) (c : Cell)
    (hlocked : st.lockedH3Data = some locked ∨
      (st.lockedH3Data = none ∧ ls.lockedH3Data = some locked))
    (hcoords : (readCustomerCoords js st).2 = some { lat := lat, lng := lng })
    (hcell : h3.latLngToCell lat lng locked.resolution = .ok c) :
    (validateLocation js h3 ls st).1.isValidLocation = decide (c ∈ lockedIndices locked) ∧
    (validateLocation js h3 ls st).1.currentH3 = some c ∧
    (validateLocation js h3 ls st).1.currentLocation = some { lat := lat, lng := lng } ∧
    (validateLocation js h3 ls st).2 = .finished ∧
    (validateLocation js h3 ls st).1.validationStatus =
      (if c ∈ lockedIndices locked then .valid else .invalid) := by
  rcases hlocked with h | ⟨h1, h2⟩
  · simp only [validateLocation, h]
    exact validateLoaded_of_cell js h3 locked st lat lng c hcoords hcell
  · simp only [validateLocation, h1, loadLockedH3Data, h2]
    apply validateLoaded_of_cell js h3 locked _ lat lng c _ hcell
    rw [readCustomerCoords_locked]
    exact hcoords

namespace Selection

theorem get_append_of_mem (s t : Selection) (k : Cell) (h : k ∈ s.keys) :
    (s ++ t).get k = s.get k := by
  induction s with
  | nil => simp at h
  | cons e s ih =>
    obtain ⟨k0, v0⟩ := e
    by_cases hk : k = k0
    · subst hk
      simp [get, List.lookup]
    · have hmem : k ∈ keys s := by
        simp only [keys_cons, List.mem_cons] at h
        exact h.resolve_left hk
      have hb : (k == k0) = false := by simpa using hk
      simpa [get, List.lookup, hb] using ih hmem

theorem get_append_of_not_mem (s t : Selection) (k : Cell) (h : k ∉ s.keys) :
    (s ++ t).get k = t.get k := by
  induction s with
  | nil => rfl
  | cons e s ih =>
    obtain ⟨k0, v0⟩ := e
    simp only [keys_cons, List.mem_cons, not_or] at h
    have hb : (k == k0) = false := by simpa using h.1
    simpa [get, List.lookup, hb] using ih h.2

theorem keys_delete_sublist (s : Selection) (k : Cell) : (s.delete k).keys.Sublist s.keys := by
  simp only [delete, keys]
  exact (List.filter_sublist s).map Prod.fst

end Selection

theorem addH3Hexagon_added (h3 : H3) (lat lng : JSNum) (resolution : Int) (sel : Selection)
    (c : Cell) (hlat : lat.isNaN = false) (hlng : lng.isNaN = false)
    (hcell : h3.latLngToCell lat lng resolution = .ok c) (hne : c ≠ "")
    (hnew : c ∉ sel.keys) (hdraw : succeeds (h3.cellToBoundary c) = true) :
    addH3Hexagon h3 lat lng resolution sel =
      (sel ++ [(c, { h3Index := c, resolution := resolution, lat := lat, lng := lng })],
       .added c) := by
  have hhas : sel.has c = false := by simpa [Selection.has] using hnew
  cases hb : h3.cellToBoundary c with
  | error e => simp [hb, succeeds] at hdraw
  | ok bd => simp [addH3Hexagon, hlat, hlng, hcell, hne, hhas, hb, Selection.set_of_not_has]

/-- Whatever `addH3Hexagon` does, it either leaves the map alone or appends one entry
whose key was not selected. -/
theorem addH3Hexagon_cases (h3 : H3) (lat lng : JSNum) (resolution : Int) (sel : Selection) :
    ((addH3Hexagon h3 lat lng resolution sel).1 = sel ∧
      ∀ c, (addH3Hexagon h3 lat lng resolution sel).2 ≠ .added c) ∨
    ∃ c, c ∉ sel.keys ∧ c ≠ "" ∧ lat.isNaN = false ∧ lng.isNaN = false ∧
      h3.latLngToCell lat lng resolution = .ok c ∧
      addH3Hexagon h3 lat lng resolution sel =
        (sel ++ [(c, { h3Index := c, resolution := resolution, lat := lat, lng := lng })],
         .added c) := by
  unfold addH3Hexagon
  by_cases hnan : (lat.isNaN || lng.isNaN) = true
  · left; simp [hnan]
  · simp only [hnan]
    have hlat : lat.isNaN = false := by
      cases h : lat.isNaN <;> simp_all
    have hlng : lng.isNaN = false := by
      cases h : lng.isNaN <;> simp_all
    cases hcell : h3.latLngToCell lat lng resolution with
    | error e => left; simp
    | ok c =>
      by_cases hne : c = ""
      · left; simp [hne]
      · by_cases hhas : sel.has c = true
        · left; simp [hne, hhas]
        · have hhas' : sel.has c = false := by simpa using hhas
          cases hb : h3.cellToBoundary c with
          | error e => left; simp [hne, hhas', hb]
          | ok bd =>
            right
            refine ⟨c, ?_, hne, hlat, hlng, rfl, ?_⟩
            · intro hmem
              exact hhas ((Selection.has_iff sel c).2 hmem)
            · simp [hne, hhas', hb, Selection.set_of_not_has]

theorem reachable_nodup (h3 : H3) (sel : Selection) (h : Reachable h3 sel) :
    sel.keys.Nodup := by
  induction h with
  | start => simp
  | add lat lng resolution sel _ ih =>
    rcases addH3Hexagon_cases h3 lat lng resolution sel with ⟨h1, _⟩ | ⟨c, hc, _, _, _, _, h1⟩
    · rw [h1]; exact ih
    · rw [h1]
      simp only [Selection.keys_append, Selection.keys_cons, Selection.keys_nil]
      refine List.Nodup.append ih (by simp) ?_
      intro x hx1 hx2
      simp only [List.mem_singleton] at hx2
      exact hc (hx2 ▸ hx1)
  | expand resolution sel _ ih =>
    by_cases hne : sel = []
    · subst hne
      simp [addAdjacentHexagons, Selection.size]
    · obtain ⟨out, h1, _, h2, h3', _⟩ := addAdjacentHexagons_spec h3 resolution sel hne
      rw [h1, Selection.keys_append]
      refine List.Nodup.append ih h2 ?_
      intro x hx1 hx2
      exact (h3' x hx2).1 hx1
  | remove h3Index sel _ ih =>
    unfold removeH3Hexagon
    split
    · exact ih.sublist (Selection.keys_delete_sublist sel h3Index)
    · exact ih
  | clear sel _ _ => simp [clearSelectedHexagons]

theorem validateLoaded_locked (js : JS) (h3 : H3) (locked : LockedH3Data)
    (st : CustomerState) (d : Option LockedH3Data) :
    validateLoaded js h3 locked { st with lockedH3Data := d } =
      ({ (validateLoaded js h3 locked st).1 with lockedH3Data := d },
       (validateLoaded js h3 locked st).2) := by
  simp only [validateLoaded, readCustomerCoords_locked]
  rcases readCustomerCoords js st with ⟨st1, oc⟩
  cases oc with
  | none => rfl
  | some coords =>
    simp only
    cases h3.latLngToCell coords.lat coords.lng locked.resolution with
    | error e => rfl
    | ok c =>
      simp only
      split <;> rfl

theorem validateLoaded_congr (js : JS) (h3 : H3) (a b : LockedH3Data) (st : CustomerState)
    (hres : a.resolution = b.resolution) (hidx : lockedIndices a = lockedIndices b) :
    validateLoaded js h3 a st = validateLoaded js h3 b st := by
  simp only [validateLoaded, hres, hidx]

theorem reached_congr (h3 : H3) (a b : List Cell) (hsame : ∀ c, c ∈ a ↔ c ∈ b) (s : Cell) :
    reached h3 a s = reached h3 b s := by
  have hEq : (fun n => decide (n ∈ a) || drawable h3 n) =
      (fun n => decide (n ∈ b) || drawable h3 n) := by
    funext n
    rw [decide_eq_decide.2 (hsame n)]
  simp only [reached, hEq]

theorem keys_eq_nil (sel : Selection) (h : sel.keys = []) : sel = [] := by
  cases sel with
  | nil => rfl
  | cons e t => simp at h

/-! ## Lemmas on `parseCoordinates` and on failed validations -/

theorem JSNum.le_fin_iff (x : JSNum) (hi : ℚ) :
    x.le (.fin hi) = true ↔ x = .negInf ∨ ∃ q, x = .fin q ∧ q ≤ hi := by
  cases x <;> simp [JSNum.le]

theorem JSNum.fin_le_iff (lo : ℚ) (x : JSNum) :
    (JSNum.fin lo).le x = true ↔ x = .posInf ∨ ∃ q, x = .fin q ∧ lo ≤ q := by
  cases x <;> simp [JSNum.le]

theorem inRange_iff (lo hi : ℚ) (x : JSNum) :
    ((JSNum.fin lo).le x && x.le (.fin hi)) = true ↔ InRange lo hi x := by
  cases x <;> simp [JSNum.le, InRange]

theorem rangeTest_iff (a b : JSNum) : rangeTest a b = true ↔ ValidOrdering a b := by
  simp only [rangeTest, Bool.and_eq_true, ValidOrdering, ← inRange_iff]

theorem InRange.not_nan {lo hi : ℚ} {x : JSNum} (h : InRange lo hi x) : x.isNaN = false := by
  obtain ⟨q, rfl, _⟩ := h
  rfl

theorem InRange.mono {lo hi lo2 hi2 : ℚ} {x : JSNum} (h : InRange lo hi x)
    (h1 : lo2 ≤ lo) (h2 : hi ≤ hi2) : InRange lo2 hi2 x := by
  obtain ⟨q, rfl, ha, hb⟩ := h
  exact ⟨q, rfl, le_trans h1 ha, le_trans hb h2⟩

theorem parseCoordinates_eq (js : JS) (input : String) :
    parseCoordinates js input =
      (coordinateSides input).bind
        (fun p => orderCoordinates (js.parseFloat p.1) (js.parseFloat p.2)) := by
  unfold parseCoordinates coordinateSides orderCoordinates rangeTest
  by_cases h1 : input = "" ∨ jsTrim input.data = []
  · simp [h1]
  · simp only [h1, if_false]
    split
    · simp
    · simp only [Option.some_bind]

theorem parseCoordinates_of_sides (js : JS) (text : String) (a b : JSNum)
    (h : SidesParse js text a b) : parseCoordinates js text = orderCoordinates a b := by
  obtain ⟨l, r, hs, rfl, rfl⟩ := h
  rw [parseCoordinates_eq, hs]
  rfl

theorem orderCoordinates_valid (a b : JSNum) (h : ValidOrdering a b) :
    orderCoordinates a b = some { lat := a, lng := b } := by
  have ha := h.1.not_nan
  have hb := h.2.not_nan
  simp [orderCoordinates, ha, hb, (rangeTest_iff a b).2 h]

theorem orderCoordinates_swapped (a b : JSNum) (ha : a.isNaN = false) (hb : b.isNaN = false)
    (h : ¬ ValidOrdering a b) : orderCoordinates a b = some { lat := b, lng := a } := by
  have ht : rangeTest a b = false := by
    cases hr : rangeTest a b
    · rfl
    · exact absurd ((rangeTest_iff a b).1 hr) h
  simp [orderCoordinates, ha, hb, ht]

theorem orderCoordinates_eq_none (a b : JSNum) :
    orderCoordinates a b = none ↔ a.isNaN = true ∨ b.isNaN = true := by
  unfold orderCoordinates
  cases ha : a.isNaN <;> cases hb : b.isNaN <;> simp
  split <;> simp

theorem jsTrim_eq_nil_of_whitespace (s : List Char) (h : ∀ c ∈ s, isJSWhitespace c = true) :
    jsTrim s = [] := by
  have : s.dropWhile isJSWhitespace = [] := List.dropWhile_eq_nil_iff.2 h
  simp [jsTrim, this]

theorem not_mem_jsTrim (s : List Char) (c : Char) (h : c ∉ s) : c ∉ jsTrim s := by
  intro hc
  apply h
  simp only [jsTrim, List.mem_reverse] at hc
  have h1 := (List.dropWhile_sublist isJSWhitespace).subset hc
  simp only [List.mem_reverse] at h1
  exact (List.dropWhile_sublist isJSWhitespace).subset h1

theorem not_mem_collapseWhitespace (s : List Char) (h : ',' ∉ s) :
    ∀ flag, ',' ∉ collapseWhitespace flag s := by
  induction s with
  | nil => intro flag; simp [collapseWhitespace]
  | cons c cs ih =>
    intro flag
    have hc : ',' ≠ c := fun e => h (e ▸ List.mem_cons_self _ _)
    have hcs : ',' ∉ cs := fun e => h (List.mem_cons_of_mem _ e)
    simp only [collapseWhitespace]
    split
    · split
      · exact ih hcs true
      · intro hm
        rcases List.mem_cons.1 hm with e | e
        · exact absurd e (by decide)
        · exact ih hcs true e
    · intro hm
      rcases List.mem_cons.1 hm with e | e
      · exact hc e
      · exact ih hcs false e

theorem coordinateSides_eq_none (input : String)
    (h : input = "" ∨ (∀ c ∈ input.data, isJSWhitespace c = true) ∨ ',' ∉ input.data) :
    coordinateSides input = none := by
  unfold coordinateSides
  rcases h with h | h | h
  · simp [h]
  · simp [jsTrim_eq_nil_of_whitespace _ h]
  · split
    · rfl
    · have hno : ',' ∉ collapseWhitespace false (jsTrim input.data) :=
        not_mem_collapseWhitespace _ (not_mem_jsTrim _ _ h) false
      simp [List.indexOf_eq_length.2 hno]

theorem readCustomerCoords_frame (js : JS) (st : CustomerState) :
    (readCustomerCoords js st).1.isValidLocation = st.isValidLocation ∧
    (readCustomerCoords js st).1.validationStatus = st.validationStatus ∧
    (readCustomerCoords js st).1.lockedH3Data = st.lockedH3Data := by
  simp only [readCustomerCoords]
  repeat (first | exact ⟨rfl, rfl, rfl⟩ | split)

theorem validateLoaded_of_error (js : JS) (h3 : H3) (locked : LockedH3Data)
    (st : CustomerState) (lat lng : JSNum) (e : String)
    (hcoords : (readCustomerCoords js st).2 = some { lat := lat, lng := lng })
    (hcell : h3.latLngToCell lat lng locked.resolution = .error e) :
    validateLoaded js h3 locked st =
      ({ (readCustomerCoords js st).1 with currentLocation := some { lat := lat, lng := lng } },
       .threw e) := by
  rcases hr : readCustomerCoords js st with ⟨st1, oc⟩
  rw [hr] at hcoords
  simp only at hcoords
  subst hcoords
  simp only [validateLoaded, hr, hcell]

theorem validateLocation_of_error (js : JS) (h3 : H3) (ls : LocalStorage)
    (st : CustomerState) (locked : LockedH3Data) (lat lng : JSNum) (e : String)
    (hlocked : st.lockedH3Data = some locked ∨
      (st.lockedH3Data = none ∧ ls.lockedH3Data = some locked))
    (hcoords : (readCustomerCoords js st).2 = some { lat := lat, lng := lng })
    (hcell : h3.latLngToCell lat lng locked.resolution = .error e) :
    (validateLocation js h3 ls st).2 = .threw e ∧
    (validateLocation js h3 ls st).1.isValidLocation = st.isValidLocation ∧
    (validateLocation js h3 ls st).1.validationStatus = st.validationStatus ∧
    (validateLocation js h3 ls st).1.currentLocation = some { lat := lat, lng := lng } := by
  obtain ⟨f1, f2, _⟩ := readCustomerCoords_frame js st
  rcases hlocked with h | ⟨h1, h2⟩
  · simp only [validateLocation, h]
    rw [validateLoaded_of_error js h3 locked st lat lng e hcoords hcell]
    exact ⟨rfl, f1, f2, rfl⟩
  · simp only [validateLocation, h1, loadLockedH3Data, h2]
    rw [validateLoaded_locked, validateLoaded_of_error js h3 locked st lat lng e hcoords hcell]
    exact ⟨rfl, f1, f2, rfl⟩

theorem validateLoaded_congr_mem (js : JS) (h3 : H3) (a b : LockedH3Data) (st : CustomerState)
    (hres : a.resolution = b.resolution)
    (hidx : ∀ c, c ∈ lockedIndices a ↔ c ∈ lockedIndices b) :
    validateLoaded js h3 a st = validateLoaded js h3 b st := by
  simp only [validateLoaded, hres]
  rcases readCustomerCoords js st with ⟨st1, oc⟩
  cases oc with
  | none => rfl
  | some coords =>
    simp only
    cases h3.latLngToCell coords.lat coords.lng b.resolution with
    | error e => rfl
    | ok c =>
      simp only
      by_cases hm : c ∈ lockedIndices a
      · rw [if_pos hm, if_pos ((hidx c).1 hm)]
      · rw [if_neg hm, if_neg (fun h => hm ((hidx c).2 h))]

/-! ## Lemmas on removal and on the text of the cell list -/

namespace Selection

theorem get_eq_none_iff (s : Selection) (k : Cell) : s.get k = none ↔ k ∉ s.keys := by
  induction s with
  | nil => simp [get, keys]
  | cons e s ih =>
    obtain ⟨k0, v0⟩ := e
    by_cases hk : k = k0
    · subst hk
      simp [get, List.lookup]
    · have hb : (k == k0) = false := by simpa using hk
      simp only [get, List.lookup, hb, keys_cons, List.mem_cons, hk, false_or]
      exact ih

theorem get_delete_of_ne (s : Selection) (c k : Cell) (h : k ≠ c) :
    (s.delete c).get k = s.get k := by
  induction s with
  | nil => rfl
  | cons e s ih =>
    obtain ⟨k0, v0⟩ := e
    by_cases hc : k0 = c
    · subst hc
      have hb : (k == k0) = false := by simpa using h
      simpa [delete, get, List.lookup, hb] using ih
    · by_cases hk : k = k0
      · subst hk
        simp [delete, get, List.lookup, hc]
      · have hb : (k == k0) = false := by simpa using hk
        simpa [delete, get, List.lookup, hb, hc] using ih

theorem keys_delete (s : Selection) (c : Cell) :
    (s.delete c).keys = s.keys.filter (fun k => decide (k ≠ c)) := by
  induction s with
  | nil => rfl
  | cons e s ih =>
    by_cases hc : e.1 = c
    · simpa [delete, keys, hc] using ih
    · simpa [delete, keys, hc] using ih

end Selection

theorem splitAtCommas_ne_nil (s : List Char) : splitAtCommas s ≠ [] := by
  cases s with
  | nil => simp [splitAtCommas]
  | cons c cs =>
    simp only [splitAtCommas]
    split
    · simp
    · split <;> simp

theorem splitAtCommas_of_no_comma (p : List Char) (h : ',' ∉ p) : splitAtCommas p = [p] := by
  induction p with
  | nil => rfl
  | cons c cs ih =>
    have hc : c ≠ ',' := fun e => h (e ▸ List.mem_cons_self _ _)
    have hcs : ',' ∉ cs := fun e => h (List.mem_cons_of_mem _ e)
    simp [splitAtCommas, hc, ih hcs]

theorem splitAtCommas_append (p rest : List Char) (h : ',' ∉ p) :
    splitAtCommas (p ++ ',' :: rest) = p :: splitAtCommas rest := by
  induction p with
  | nil => simp [splitAtCommas]
  | cons c cs ih =>
    have hc : c ≠ ',' := fun e => h (e ▸ List.mem_cons_self _ _)
    have hcs : ',' ∉ cs := fun e => h (List.mem_cons_of_mem _ e)
    simp [splitAtCommas, hc, ih hcs]

theorem intercalate_go_data (as : List String) :
    ∀ acc : String, (String.intercalate.go acc "," as).data =
      acc.data ++ (as.map (fun x => ',' :: x.data)).flatten := by
  induction as with
  | nil => intro acc; simp [String.intercalate.go]
  | cons a as ih =>
    intro acc
    simp only [String.intercalate.go, ih, String.data_append, List.map_cons, List.flatten_cons,
      List.append_assoc]
    rfl

theorem splitAtCommas_joined (as : List String) (h : ∀ c ∈ as, ',' ∉ c.data) :
    ∀ a : String, ',' ∉ a.data →
      splitAtCommas (a.data ++ (as.map (fun x => ',' :: x.data)).flatten) =
        a.data :: as.map String.data := by
  induction as with
  | nil =>
    intro a ha
    simpa using splitAtCommas_of_no_comma a.data ha
  | cons b bs ih =>
    intro a ha
    have hb : ',' ∉ b.data := h b (List.mem_cons_self _ _)
    have hbs : ∀ c ∈ bs, ',' ∉ c.data := fun c hc => h c (List.mem_cons_of_mem _ hc)
    simp only [List.map_cons, List.flatten_cons, List.cons_append]
    rw [splitAtCommas_append a.data _ ha, ih hbs b hb]

theorem jsSplitComma_jsJoinComma (cells : List String) (hne : cells ≠ [])
    (h : ∀ c ∈ cells, ',' ∉ c.data) : jsSplitComma (jsJoinComma cells) = cells := by
  cases cells with
  | nil => exact absurd rfl hne
  | cons a as =>
    have ha : ',' ∉ a.data := h a (List.mem_cons_self _ _)
    have has : ∀ c ∈ as, ',' ∉ c.data := fun c hc => h c (List.mem_cons_of_mem _ hc)
    simp only [jsSplitComma, jsJoinComma, String.intercalate, intercalate_go_data,
      splitAtCommas_joined as has a ha, List.map_cons, List.map_map]
    congr 1
    exact List.map_id'' (fun s => rfl) as

/-! ## The properties -/

/-- C1 (as stated, refuted): on the grid fragment, the selection built by adding
(24.7, 46.6) at resolution 9 and then (24.8, 46.7) at resolution 10 contains the cell
`8a-c` obtained from the second point, yet after either commit `validateLocation` on
that point computes the cell `89-c` and sets the verdict to invalid. -/
theorem C1_counterexample :
    demoH3.latLngToCell (tenths 248) (tenths 467) 10 = .ok "8a-c" ∧
    (addH3Hexagon demoH3 (tenths 248) (tenths 467) 10 demoSelection9).2 = .added "8a-c" ∧
    "8a-c" ∈ demoMixedSelection.keys ∧
    (validateLocation demoJS demoH3 (goToCustomerPage demoMixedSelection emptyStorage).1
      (CustomerState.fresh (some "24.8") (some "46.7") "")).1.isValidLocation = false ∧
    (validateLocation demoJS demoH3 (goToCustomerPage demoMixedSelection emptyStorage).1
      (CustomerState.fresh (some "24.8") (some "46.7") "")).1.currentH3 = some "89-c" ∧
    (validateLocation demoJS demoH3
      (saveMerchant demoMixedSelection demoForm "2024-01-01T00:00:00.000Z" emptyStorage).1
      (CustomerState.fresh (some "24.8") (some "46.7") "")).1.isValidLocation = false := by
  decide

/-- C1 (amended): for every selection that contains the cell `C` of point `P` at
resolution `R` and whose first entry is recorded with resolution `R`, committing it
with `saveMerchant` or `goToCustomerPage` and then running `validateLocation` on `P`
in a newly opened customer page computes the candidate cell `C` and sets the verdict
to valid. -/
theorem C1_roundtrip_at_committed_resolution (js : JS) (h3 : H3) (first : Cell × HexData)
    (rest : Selection) (form : MerchantForm) (createdAt : String) (ls : LocalStorage)
    (st : CustomerState) (lat lng : JSNum) (R : Int) (C : Cell)
    (hcell : h3.latLngToCell lat lng R = .ok C)
    (hmem : C ∈ Selection.keys (first :: rest))
    (hfirst : first.2.resolution = R)
    (hpage : st.lockedH3Data = none)
    (hcoords : (readCustomerCoords js st).2 = some { lat := lat, lng := lng }) :
    ((validateLocation js h3 (goToCustomerPage (first :: rest) ls).1 st).1.isValidLocation = true ∧
     (validateLocation js h3 (goToCustomerPage (first :: rest) ls).1 st).1.currentH3 = some C ∧
     (validateLocation js h3 (goToCustomerPage (first :: rest) ls).1 st).1.validationStatus
        = .valid) ∧
    ((validateLocation js h3 (saveMerchant (first :: rest) form createdAt ls).1 st).1.isValidLocation
        = true ∧
     (validateLocation js h3 (saveMerchant (first :: rest) form createdAt ls).1 st).1.currentH3
        = some C ∧
     (validateLocation js h3
        (saveMerchant (first :: rest) form createdAt ls).1 st).1.validationStatus = .valid) := by
  subst hfirst
  have key : ∀ ls1 : LocalStorage,
      ls1.lockedH3Data = some { h3Indices := some (Selection.keys (first :: rest)),
                                h3Index := none, resolution := first.2.resolution } →
      (validateLocation js h3 ls1 st).1.isValidLocation = true ∧
      (validateLocation js h3 ls1 st).1.currentH3 = some C ∧
      (validateLocation js h3 ls1 st).1.validationStatus = .valid := by
    intro ls1 h1
    obtain ⟨hv, hcur, _, _, hstat⟩ := validateLocation_of_cell js h3 ls1 st _ lat lng C
      (Or.inr ⟨hpage, h1⟩) hcoords hcell
    have hin : C ∈ lockedIndices { h3Indices := some (Selection.keys (first :: rest)),
                                   h3Index := none, resolution := first.2.resolution } := by
      simpa [lockedIndices] using hmem
    refine ⟨?_, hcur, ?_⟩
    · rw [hv]; exact decide_eq_true hin
    · rw [hstat]; exact if_pos hin
  exact ⟨key _ rfl, key _ rfl⟩

/-- C1 (amended), at an instance: the selection of two cells added at resolution 9. -/
theorem C1_roundtrip_witness :
    (validateLocation demoJS demoH3
      (goToCustomerPage
        (("89-a", { h3Index := "89-a", resolution := 9, lat := tenths 247, lng := tenths 466 }) ::
          [("89-c", { h3Index := "89-c", resolution := 9, lat := tenths 248,
                      lng := tenths 467 })]) emptyStorage).1
      (CustomerState.fresh (some "24.8") (some "46.7") "")).1.isValidLocation = true :=
  (C1_roundtrip_at_committed_resolution demoJS demoH3
    ("89-a", { h3Index := "89-a", resolution := 9, lat := tenths 247, lng := tenths 466 })
    [("89-c", { h3Index := "89-c", resolution := 9, lat := tenths 248, lng := tenths 467 })]
    demoForm "" emptyStorage (CustomerState.fresh (some "24.8") (some "46.7") "")
    (tenths 248) (tenths 467) 9 "89-c" (by decide) (by decide) rfl rfl (by decide)).1.1

/-- C2: when the locked geofence holds the cell list `cells`, the candidate read from
the page is (lat, lng) and `latLngToCell` returns `c` on it at the locked resolution,
`validateLocationInH3` returns true, and `validateLocation` sets `isValidLocation` to
true, exactly when `c` is an element of `cells`; a point whose cell is not in the list
is reported invalid by both. -/
theorem C2_verdict_iff_member (js : JS) (h3 : H3) (ls : LocalStorage) (st : CustomerState)
    (locked : LockedH3Data) (cells : List Cell) (lat lng : JSNum) (c : Cell)
    (hlocked : st.lockedH3Data = some locked ∨
      (st.lockedH3Data = none ∧ ls.lockedH3Data = some locked))
    (hcells : locked.h3Indices = some cells)
    (hcoords : (readCustomerCoords js st).2 = some { lat := lat, lng := lng })
    (hcell : h3.latLngToCell lat lng locked.resolution = .ok c) :
    (validateLocationInH3 h3 lat lng cells locked.resolution = true ↔ c ∈ cells) ∧
    ((validateLocation js h3 ls st).1.isValidLocation = true ↔ c ∈ cells) ∧
    (c ∉ cells →
      validateLocationInH3 h3 lat lng cells locked.resolution = false ∧
      (validateLocation js h3 ls st).1.isValidLocation = false) := by
  have hidx : lockedIndices locked = cells := by simp [lockedIndices, hcells]
  obtain ⟨hv, _, _, _, _⟩ :=
    validateLocation_of_cell js h3 ls st locked lat lng c hlocked hcoords hcell
  rw [hidx] at hv
  refine ⟨by simp [validateLocationInH3, hcell], by simp [hv], fun hnot => ?_⟩
  exact ⟨by simp [validateLocationInH3, hcell, hnot], by simp [hv, hnot]⟩

/-- C2, at an instance: the point (24.7, 46.6) against the one-cell geofence `89-a`. -/
theorem C2_verdict_witness :
    (validateLocation demoJS demoH3 emptyStorage
      { CustomerState.fresh (some "24.7") (some "46.6") "" with
        lockedH3Data := some (listLocked ["89-a"] 9) }).1.isValidLocation = true ↔
      "89-a" ∈ ["89-a"] :=
  (C2_verdict_iff_member demoJS demoH3 emptyStorage
    { CustomerState.fresh (some "24.7") (some "46.6") "" with
      lockedH3Data := some (listLocked ["89-a"] 9) }
    (listLocked ["89-a"] 9) ["89-a"]
    (tenths 247) (tenths 466) "89-a" (Or.inl rfl) rfl (by decide) (by decide)).2.1

/-- C3 (as stated, refuted): on the grid fragment, after the add of (24.7, 46.6) at
resolution 9 the add of (24.8, 46.7) at resolution 10 raises no alert and appends the
cell `8a-c`, recorded with resolution 10, to the selection. -/
theorem C3_counterexample :
    demoSelection9 =
      [("89-a", { h3Index := "89-a", resolution := 9, lat := tenths 247, lng := tenths 466 })] ∧
    addH3Hexagon demoH3 (tenths 248) (tenths 467) 10 demoSelection9 =
      (demoSelection9 ++
        [("8a-c", { h3Index := "8a-c", resolution := 10, lat := tenths 248, lng := tenths 467 })],
       .added "8a-c") ∧
    (addH3Hexagon demoH3 (tenths 248) (tenths 467) 10 demoSelection9).1 ≠ demoSelection9 := by
  decide

/-- C3 (amended): the resolution of an add is not compared with the selection. For
every non-empty selection whose first cell is recorded with resolution `r`, an add of
a valid point at a resolution `r2` different from `r` whose cell is not yet selected
appends that cell, recorded with `r2`, and a commit of the result still writes the
resolution `r` of the first cell. -/
theorem C3_add_at_other_resolution (h3 : H3) (first : Cell × HexData) (rest : Selection)
    (ls : LocalStorage) (lat lng : JSNum) (r r2 : Int) (c : Cell)
    (hfirst : first.2.resolution = r) (_hdiff : r2 ≠ r)
    (hlat : lat.isNaN = false) (hlng : lng.isNaN = false)
    (hcell : h3.latLngToCell lat lng r2 = .ok c) (hne : c ≠ "")
    (hnew : c ∉ Selection.keys (first :: rest))
    (hdraw : succeeds (h3.cellToBoundary c) = true) :
    addH3Hexagon h3 lat lng r2 (first :: rest) =
      (first :: rest ++ [(c, { h3Index := c, resolution := r2, lat := lat, lng := lng })],
       .added c) ∧
    (goToCustomerPage (addH3Hexagon h3 lat lng r2 (first :: rest)).1 ls).1.lockedH3Data =
      some (listLocked (Selection.keys (first :: rest) ++ [c]) r) := by
  have hadd := addH3Hexagon_added h3 lat lng r2 (first :: rest) c hlat hlng hcell hne hnew hdraw
  refine ⟨by simpa using hadd, ?_⟩
  rw [hadd]
  simp [goToCustomerPage, listLocked, hfirst]

/-- C3 (amended), at the instance of the counterexample. -/
theorem C3_add_at_other_resolution_witness :
    (goToCustomerPage (addH3Hexagon demoH3 (tenths 248) (tenths 467) 10
      (("89-a", { h3Index := "89-a", resolution := 9, lat := tenths 247, lng := tenths 466 }) ::
        [])).1 emptyStorage).1.lockedH3Data =
      some (listLocked (Selection.keys
        (("89-a", { h3Index := "89-a", resolution := 9, lat := tenths 247, lng := tenths 466 }) ::
          []) ++ ["8a-c"]) 9) :=
  (C3_add_at_other_resolution demoH3
    ("89-a", { h3Index := "89-a", resolution := 9, lat := tenths 247, lng := tenths 466 }) []
    emptyStorage (tenths 248) (tenths 467) 9 10 "8a-c" rfl (by decide) rfl rfl (by decide)
    (by decide) (by decide) (by decide)).2

/-- C4: when the cell of a valid (lat, lng, resolution) is already a key of the
selection, `addH3Hexagon` raises the already-selected alert and returns the selection
as it was; and from every selection, a second `addH3Hexagon` with the same arguments
leaves the result of the first unchanged, raising the already-selected alert when the
first one stored the cell. -/
theorem C4_idempotent_add (h3 : H3) (lat lng : JSNum) (resolution : Int) (sel : Selection) :
    (∀ c, lat.isNaN = false → lng.isNaN = false →
      h3.latLngToCell lat lng resolution = .ok c → c ≠ "" → c ∈ sel.keys →
        addH3Hexagon h3 lat lng resolution sel = (sel, .alreadySelected)) ∧
    (addH3Hexagon h3 lat lng resolution (addH3Hexagon h3 lat lng resolution sel).1).1 =
      (addH3Hexagon h3 lat lng resolution sel).1 ∧
    (∀ c, (addH3Hexagon h3 lat lng resolution sel).2 = .added c →
      addH3Hexagon h3 lat lng resolution (addH3Hexagon h3 lat lng resolution sel).1 =
        ((addH3Hexagon h3 lat lng resolution sel).1, .alreadySelected)) := by
  have hdup : ∀ (s : Selection) (c : Cell), lat.isNaN = false → lng.isNaN = false →
      h3.latLngToCell lat lng resolution = .ok c → c ≠ "" → c ∈ s.keys →
        addH3Hexagon h3 lat lng resolution s = (s, .alreadySelected) := by
    intro s c hlat hlng hcell hne hmem
    have hhas : s.has c = true := (Selection.has_iff s c).2 hmem
    simp [addH3Hexagon, hlat, hlng, hcell, hne, hhas]
  refine ⟨hdup sel, ?_, ?_⟩
  · rcases addH3Hexagon_cases h3 lat lng resolution sel with
      ⟨h1, _⟩ | ⟨c, _, hne, hlat, hlng, hcell, h1⟩
    · rw [h1, h1]
    · rw [h1]
      rw [hdup _ c hlat hlng hcell hne (by simp)]
  · intro c hc
    rcases addH3Hexagon_cases h3 lat lng resolution sel with
      ⟨_, h2⟩ | ⟨c2, _, hne, hlat, hlng, hcell, h1⟩
    · exact absurd hc (h2 c)
    · rw [h1]
      exact hdup _ c2 hlat hlng hcell hne (by simp)

/-- C4, at an instance: (24.7, 46.6) at resolution 9 added to the selection that
already holds its cell. -/
theorem C4_idempotent_add_witness :
    addH3Hexagon demoH3 (tenths 247) (tenths 466) 9 demoSelection9 =
      (demoSelection9, .alreadySelected) :=
  (C4_idempotent_add demoH3 (tenths 247) (tenths 466) 9 demoSelection9).1 "89-a"
    rfl rfl (by decide) (by decide) (by decide)

/-- C5: for every selection and every valid (lat, lng, resolution) whose cell `c` is
not yet selected, `addH3Hexagon` appends the one entry with key `c` and the record
(h3Index `c`, resolution, lat, lng): the keys are the old keys followed by `c`, the
size grows by one, `c` maps to that record and every other key maps to what it mapped
to before. -/
theorem C5_successful_add (h3 : H3) (lat lng : JSNum) (resolution : Int) (sel : Selection)
    (c : Cell) (hlat : lat.isNaN = false) (hlng : lng.isNaN = false)
    (hcell : h3.latLngToCell lat lng resolution = .ok c) (hne : c ≠ "")
    (hnew : c ∉ sel.keys) (hdraw : succeeds (h3.cellToBoundary c) = true) :
    addH3Hexagon h3 lat lng resolution sel =
      (sel ++ [(c, { h3Index := c, resolution := resolution, lat := lat, lng := lng })],
       .added c) ∧
    (addH3Hexagon h3 lat lng resolution sel).1.keys = sel.keys ++ [c] ∧
    (addH3Hexagon h3 lat lng resolution sel).1.size = sel.size + 1 ∧
    (addH3Hexagon h3 lat lng resolution sel).1.get c =
      some { h3Index := c, resolution := resolution, lat := lat, lng := lng } ∧
    (∀ k, k ≠ c → (addH3Hexagon h3 lat lng resolution sel).1.get k = sel.get k) := by
  have hadd := addH3Hexagon_added h3 lat lng resolution sel c hlat hlng hcell hne hnew hdraw
  refine ⟨hadd, ?_, ?_, ?_, ?_⟩
  · rw [hadd]; simp
  · rw [hadd]; simp [Selection.size]
  · rw [hadd, Selection.get_append_of_not_mem _ _ _ hnew]
    simp [Selection.get, List.lookup]
  · intro k hk
    rw [hadd]
    by_cases hmem : k ∈ sel.keys
    · exact Selection.get_append_of_mem _ _ _ hmem
    · rw [Selection.get_append_of_not_mem _ _ _ hmem]
      have hb : (k == c) = false := by simpa using hk
      have hnone : sel.get k = none := by
        have h := Selection.get_append_of_not_mem sel [] k hmem
        simpa [Selection.get] using h
      rw [hnone]
      simp [Selection.get, List.lookup, hb]

/-- C5, at an instance: (24.8, 46.7) at resolution 9 added to the selection holding
`89-a`. -/
theorem C5_successful_add_witness :
    (addH3Hexagon demoH3 (tenths 248) (tenths 467) 9 demoSelection9).1.keys =
      demoSelection9.keys ++ ["89-c"] :=
  (C5_successful_add demoH3 (tenths 248) (tenths 467) 9 demoSelection9 "89-c"
    rfl rfl (by decide) (by decide) (by decide) (by decide)).2.1

/-- C6: for every non-empty selection `S` on which the grid primitives do not throw,
after `addAdjacentHexagons` the keys are those of `S` together with the cells of
`gridDisk(c, 1)` for the `c` in `S`; the list of added cells holds exactly the keys
that were not in `S`, each once; the size grows by the length of that list; and the
entries of `S` stay in place with their records, the new entries following them. -/
theorem C6_expansion_result (h3 : H3) (resolution : Int) (sel : Selection)
    (hne : sel ≠ []) (hclean : ExpandsCleanly h3 sel.keys) :
    (∀ c, c ∈ (addAdjacentHexagons h3 resolution sel).1.keys ↔
      c ∈ sel.keys ∨ ∃ s ∈ sel.keys, ∃ ns, h3.gridDisk s 1 = .ok ns ∧ c ∈ ns) ∧
    (∀ c, c ∈ (addAdjacentHexagons h3 resolution sel).2.1 ↔
      c ∈ (addAdjacentHexagons h3 resolution sel).1.keys ∧ c ∉ sel.keys) ∧
    (addAdjacentHexagons h3 resolution sel).2.1.Nodup ∧
    (addAdjacentHexagons h3 resolution sel).1.size =
      sel.size + (addAdjacentHexagons h3 resolution sel).2.1.length ∧
    (∃ out : Selection, (addAdjacentHexagons h3 resolution sel).1 = sel ++ out ∧
      out.keys = (addAdjacentHexagons h3 resolution sel).2.1) ∧
    (∀ k ∈ sel.keys, (addAdjacentHexagons h3 resolution sel).1.get k = sel.get k) := by
  obtain ⟨out, h1, h2, hnd, hfresh, hiff⟩ :=
    addAdjacentHexagons_clean h3 resolution sel hne hclean
  rw [h1, h2]
  refine ⟨fun c => ?_, fun c => ?_, hnd, ?_, ⟨out, rfl, rfl⟩, fun k hk => ?_⟩
  · simp only [Selection.keys_append, List.mem_append, hiff c]
    constructor
    · rintro (h | ⟨_, h⟩)
      · exact Or.inl h
      · exact Or.inr h
    · rintro (h | h)
      · exact Or.inl h
      · by_cases hc : c ∈ sel.keys
        · exact Or.inl hc
        · exact Or.inr ⟨hc, h⟩
  · simp only [Selection.keys_append, List.mem_append]
    constructor
    · intro h
      exact ⟨Or.inr h, (hfresh c h).1⟩
    · rintro ⟨h | h, hn⟩
      · exact absurd h hn
      · exact h
  · simp [Selection.size, Selection.keys]
  · exact Selection.get_append_of_mem _ _ _ hk

/-- C6, at an instance: the expansion of the selection holding `89-a` adds `89-b`. -/
theorem C6_expansion_result_witness :
    demoSelection9 ≠ [] ∧
    ("89-b" ∈ (addAdjacentHexagons demoH3 9 demoSelection9).2.1 ↔
      "89-b" ∈ (addAdjacentHexagons demoH3 9 demoSelection9).1.keys ∧
        "89-b" ∉ demoSelection9.keys) ∧
    (addAdjacentHexagons demoH3 9 demoSelection9).1.size =
      demoSelection9.size + (addAdjacentHexagons demoH3 9 demoSelection9).2.1.length :=
  have h := (C6_expansion_result demoH3 9 demoSelection9 (by decide)
    (by
      have hk : demoSelection9.keys = ["89-a"] := by decide
      rw [hk]
      intro s hs
      simp only [List.mem_singleton] at hs
      subst hs
      exact ⟨["89-a", "89-b"], rfl, by decide⟩))
  ⟨by decide, h.2.1 "89-b", h.2.2.2.1⟩

/-- C7 (as stated, refuted): on the grid fragment, from the selection holding `89-a`
the first expansion adds `89-b` and the second one adds `89-c`: its list of added
cells is not empty. -/
theorem C7_counterexample :
    demoSelection9 ≠ [] ∧
    (addAdjacentHexagons demoH3 9 demoSelection9).2.1 = ["89-b"] ∧
    (addAdjacentHexagons demoH3 9 (addAdjacentHexagons demoH3 9 demoSelection9).1).2.1 =
      ["89-c"] ∧
    (addAdjacentHexagons demoH3 9 (addAdjacentHexagons demoH3 9 demoSelection9).1).2.1 ≠ [] := by
  decide

/-- C7 (amended): for every non-empty selection, when the grid primitives do not throw,
the second of two successive expansions adds exactly the cells of `gridDisk(s, 1)`,
for the cells `s` added by the first, that are not selected after the first; so its
list is empty exactly when the first expansion added no cell with a neighbour outside
the selection. -/
theorem C7_second_expansion (h3 : H3) (res1 res2 : Int) (sel : Selection) (hne : sel ≠ [])
    (hclean : ExpandsCleanly h3 (addAdjacentHexagons h3 res1 sel).1.keys) :
    (∀ c, c ∈ (addAdjacentHexagons h3 res2 (addAdjacentHexagons h3 res1 sel).1).2.1 ↔
      c ∉ (addAdjacentHexagons h3 res1 sel).1.keys ∧
      ∃ s ∈ (addAdjacentHexagons h3 res1 sel).2.1, ∃ ns, h3.gridDisk s 1 = .ok ns ∧ c ∈ ns) ∧
    ((addAdjacentHexagons h3 res2 (addAdjacentHexagons h3 res1 sel).1).2.1 = [] ↔
      ∀ s ∈ (addAdjacentHexagons h3 res1 sel).2.1, ∀ ns, h3.gridDisk s 1 = .ok ns →
        ∀ n ∈ ns, n ∈ (addAdjacentHexagons h3 res1 sel).1.keys) := by
  obtain ⟨out1, h1, h2, _, hfresh1, _, _⟩ := addAdjacentHexagons_spec h3 res1 sel hne
  have hclean0 : ExpandsCleanly h3 sel.keys := by
    intro s hs
    obtain ⟨ns, hg, hd⟩ := hclean s (by rw [h1]; simp [hs])
    refine ⟨ns, hg, fun n hn hnot => ?_⟩
    by_cases hmem : n ∈ (addAdjacentHexagons h3 res1 sel).1.keys
    · rw [h1, Selection.keys_append, List.mem_append] at hmem
      rcases hmem with hmem | hmem
      · exact absurd hmem hnot
      · exact (hfresh1 n hmem).2
    · exact hd n hn hmem
  obtain ⟨out1', k1, k2, _, _, kiff⟩ := addAdjacentHexagons_clean h3 res1 sel hne hclean0
  have hne1 : (addAdjacentHexagons h3 res1 sel).1 ≠ [] := by
    rw [h1]
    intro h
    exact hne (List.append_eq_nil.1 h).1
  obtain ⟨out2, _, m2, _, _, miff⟩ :=
    addAdjacentHexagons_clean h3 res2 (addAdjacentHexagons h3 res1 sel).1 hne1 hclean
  have hfirst : ∀ c, c ∈ (addAdjacentHexagons h3 res2 (addAdjacentHexagons h3 res1 sel).1).2.1 ↔
      c ∉ (addAdjacentHexagons h3 res1 sel).1.keys ∧
      ∃ s ∈ (addAdjacentHexagons h3 res1 sel).2.1, ∃ ns, h3.gridDisk s 1 = .ok ns ∧ c ∈ ns := by
    intro c
    rw [m2, miff c]
    constructor
    · rintro ⟨hnot, s, hs, ns, hg, hc⟩
      refine ⟨hnot, s, ?_, ns, hg, hc⟩
      rw [k1, Selection.keys_append, List.mem_append] at hs
      rcases hs with hs | hs
      · exfalso
        apply hnot
        rw [k1, Selection.keys_append, List.mem_append]
        by_cases hcs : c ∈ sel.keys
        · exact Or.inl hcs
        · exact Or.inr ((kiff c).2 ⟨hcs, s, hs, ns, hg, hc⟩)
      · rw [k2]; exact hs
    · rintro ⟨hnot, s, hs, ns, hg, hc⟩
      refine ⟨hnot, s, ?_, ns, hg, hc⟩
      rw [k2] at hs
      rw [k1, Selection.keys_append, List.mem_append]
      exact Or.inr hs
  refine ⟨hfirst, ?_⟩
  rw [List.eq_nil_iff_forall_not_mem]
  constructor
  · intro h s hs ns hg n hn
    by_contra hnot
    exact h n ((hfirst n).2 ⟨hnot, s, hs, ns, hg, hn⟩)
  · intro h c hc
    obtain ⟨hnot, s, hs, ns, hg, hcn⟩ := (hfirst c).1 hc
    exact hnot (h s hs ns hg c hcn)

/-- C7 (amended), at the instance of the counterexample. -/
theorem C7_second_expansion_witness :
    "89-c" ∈ (addAdjacentHexagons demoH3 9 (addAdjacentHexagons demoH3 9 demoSelection9).1).2.1 ↔
      "89-c" ∉ (addAdjacentHexagons demoH3 9 demoSelection9).1.keys ∧
      ∃ s ∈ (addAdjacentHexagons demoH3 9 demoSelection9).2.1, ∃ ns,
        demoH3.gridDisk s 1 = .ok ns ∧ "89-c" ∈ ns :=
  (C7_second_expansion demoH3 9 9 demoSelection9 (by decide)
    (by
      have hk : (addAdjacentHexagons demoH3 9 demoSelection9).1.keys = ["89-a", "89-b"] := by
        decide
      rw [hk]
      intro s hs
      simp only [List.mem_cons, List.mem_singleton, List.not_mem_nil, or_false] at hs
      rcases hs with rfl | rfl
      · exact ⟨["89-a", "89-b"], rfl, by decide⟩
      · exact ⟨["89-b", "89-a", "89-c"], rfl, by decide⟩)).1 "89-c"

/-- C8: for every two selections with the same set of keys, in whatever order they were
inserted, `addAdjacentHexagons` gives maps with the same set of keys and lists of added
cells with the same elements; and when the grid primitives do not throw, the same holds
against a grid library that returns the cells of each `gridDisk` in another order. -/
theorem C8_expansion_order_independent (h3 : H3) (res1 res2 : Int) (s1 s2 : Selection)
    (hsame : ∀ c, c ∈ s1.keys ↔ c ∈ s2.keys) :
    (∀ c, c ∈ (addAdjacentHexagons h3 res1 s1).1.keys ↔
      c ∈ (addAdjacentHexagons h3 res2 s2).1.keys) ∧
    (∀ c, c ∈ (addAdjacentHexagons h3 res1 s1).2.1 ↔
      c ∈ (addAdjacentHexagons h3 res2 s2).2.1) ∧
    (∀ h3b : H3, ExpandsCleanly h3 s1.keys →
      (∀ c ns, h3.gridDisk c 1 = .ok ns → ∃ ns2, h3b.gridDisk c 1 = .ok ns2 ∧ ns2.Perm ns) →
      h3b.cellToLatLng = h3.cellToLatLng → h3b.cellToBoundary = h3.cellToBoundary →
      (∀ c, c ∈ (addAdjacentHexagons h3 res1 s1).1.keys ↔
        c ∈ (addAdjacentHexagons h3b res2 s2).1.keys) ∧
      (∀ c, c ∈ (addAdjacentHexagons h3 res1 s1).2.1 ↔
        c ∈ (addAdjacentHexagons h3b res2 s2).2.1)) := by
  by_cases hne : s1 = []
  · subst hne
    have h2 : s2 = [] := by
      apply keys_eq_nil
      rw [List.eq_nil_iff_forall_not_mem]
      intro c hc
      have := (hsame c).2 hc
      simp at this
    subst h2
    simp [addAdjacentHexagons, Selection.size]
  · have hne2 : s2 ≠ [] := by
      intro h
      subst h
      apply hne
      apply keys_eq_nil
      rw [List.eq_nil_iff_forall_not_mem]
      intro c hc
      have := (hsame c).1 hc
      simp at this
    obtain ⟨o1, a1, a2, _, _, _, a6⟩ := addAdjacentHexagons_spec h3 res1 s1 hne
    obtain ⟨o2, b1, b2, _, _, _, b6⟩ := addAdjacentHexagons_spec h3 res2 s2 hne2
    have hout : ∀ c, c ∈ o1.keys ↔ c ∈ o2.keys := by
      intro c
      rw [a6 c, b6 c]
      constructor
      · rintro ⟨hn, s, hs, hc⟩
        exact ⟨fun h => hn ((hsame c).2 h), s, (hsame s).1 hs,
          (reached_congr h3 _ _ hsame s) ▸ hc⟩
      · rintro ⟨hn, s, hs, hc⟩
        exact ⟨fun h => hn ((hsame c).1 h), s, (hsame s).2 hs,
          (reached_congr h3 _ _ hsame s).symm ▸ hc⟩
    refine ⟨fun c => ?_, fun c => ?_, ?_⟩
    · rw [a1, b1]
      simp only [Selection.keys_append, List.mem_append, hsame c, hout c]
    · rw [a2, b2]
      exact hout c
    · intro h3b hclean hperm hll hbd
      have hdraw : ∀ n, drawable h3b n = drawable h3 n := by
        intro n
        simp only [drawable, hll, hbd]
      have hcleanb : ExpandsCleanly h3b s2.keys := by
        intro s hs
        obtain ⟨ns, hg, hd⟩ := hclean s ((hsame s).2 hs)
        obtain ⟨ns2, hg2, hp⟩ := hperm s ns hg
        refine ⟨ns2, hg2, fun n hn hnot => ?_⟩
        rw [hdraw n]
        exact hd n (hp.mem_iff.1 hn) (fun h => hnot ((hsame n).1 h))
      obtain ⟨p1, c1, c2, _, _, c5⟩ := addAdjacentHexagons_clean h3 res1 s1 hne hclean
      obtain ⟨p2, d1, d2, _, _, d5⟩ := addAdjacentHexagons_clean h3b res2 s2 hne2 hcleanb
      have hout2 : ∀ c, c ∈ p1.keys ↔ c ∈ p2.keys := by
        intro c
        rw [c5 c, d5 c]
        constructor
        · rintro ⟨hn, s, hs, ns, hg, hc⟩
          obtain ⟨ns2, hg2, hp⟩ := hperm s ns hg
          exact ⟨fun h => hn ((hsame c).2 h), s, (hsame s).1 hs, ns2, hg2, hp.mem_iff.2 hc⟩
        · rintro ⟨hn, s, hs, ns2, hg2, hc⟩
          obtain ⟨ns, hg, _⟩ := hclean s ((hsame s).2 hs)
          obtain ⟨ns3, hg3, hp⟩ := hperm s ns hg
          rw [hg2] at hg3
          cases hg3
          exact ⟨fun h => hn ((hsame c).1 h), s, (hsame s).2 hs, ns, hg, hp.mem_iff.1 hc⟩
      refine ⟨fun c => ?_, fun c => ?_⟩
      · rw [c1, d1]
        simp only [Selection.keys_append, List.mem_append, hsame c, hout2 c]
      · rw [c2, d2]
        exact hout2 c

/-- C8, at an instance: the cells `89-a` and `89-c` inserted in the two orders. -/
theorem C8_expansion_order_witness :
      "89-d" ∈ (addAdjacentHexagons demoH3 9
        [("89-a", { h3Index := "89-a", resolution := 9, lat := tenths 247, lng := tenths 466 }),
         ("89-c", { h3Index := "89-c", resolution := 9, lat := tenths 248,
                    lng := tenths 467 })]).1.keys ↔
      "89-d" ∈ (addAdjacentHexagons demoH3 9
        [("89-c", { h3Index := "89-c", resolution := 9, lat := tenths 248, lng := tenths 467 }),
         ("89-a", { h3Index := "89-a", resolution := 9, lat := tenths 247,
                    lng := tenths 466 })]).1.keys :=
  (C8_expansion_order_independent demoH3 9 9
    [("89-a", { h3Index := "89-a", resolution := 9, lat := tenths 247, lng := tenths 466 }),
     ("89-c", { h3Index := "89-c", resolution := 9, lat := tenths 248, lng := tenths 467 })]
    [("89-c", { h3Index := "89-c", resolution := 9, lat := tenths 248, lng := tenths 467 }),
     ("89-a", { h3Index := "89-a", resolution := 9, lat := tenths 247, lng := tenths 466 })]
    (by intro c; simp [Selection.keys, or_comm])).1 "89-d"

/-- C9: when the selection has no cell, `saveMerchant` and `goToCustomerPage` raise the
alert and leave `localStorage` as it was; otherwise both write under `lockedH3Data`
the list of the current keys of the selection with the resolution recorded for its
first cell, which is the resolution the page takes for the selection. The list holds
exactly the cells the map has, and in every selection the page can reach each of them
occurs in it once. -/
theorem C9_commit (h3 : H3) (sel : Selection) (form : MerchantForm) (createdAt : String)
    (ls : LocalStorage) :
    (sel.size = 0 →
      saveMerchant sel form createdAt ls = (ls, .needSelection) ∧
      goToCustomerPage sel ls = (ls, .needSelection)) ∧
    (sel.size ≠ 0 →
      ∃ firstH3, sel.values.head? = some firstH3 ∧
        (saveMerchant sel form createdAt ls).1.lockedH3Data =
          some (listLocked sel.keys firstH3.resolution) ∧
        (saveMerchant sel form createdAt ls).2 = .committed ∧
        (goToCustomerPage sel ls).1.lockedH3Data =
          some (listLocked sel.keys firstH3.resolution) ∧
        (goToCustomerPage sel ls).2 = .committed) ∧
    (∀ c, c ∈ sel.keys ↔ sel.has c = true) ∧
    (Reachable h3 sel → sel.keys.Nodup ∧ ∀ c, sel.has c = true → sel.keys.count c = 1) := by
  refine ⟨?_, ?_, fun c => (Selection.has_iff _ c).symm, fun hreach => ?_⟩
  · cases sel with
    | nil => exact fun _ => ⟨rfl, rfl⟩
    | cons e t =>
      intro h
      simp [Selection.size] at h
  · cases sel with
    | nil => exact fun h => absurd rfl h
    | cons e t => exact fun _ => ⟨e.2, rfl, rfl, rfl, rfl, rfl⟩
  · have hnd := reachable_nodup h3 sel hreach
    exact ⟨hnd, fun c hc => List.count_eq_one_of_mem hnd ((Selection.has_iff _ c).1 hc)⟩

/-- C9, at an instance: the selection holding `89-a`, reached by one add. -/
theorem C9_commit_witness :
    demoSelection9.size ≠ 0 ∧
    (∃ firstH3, demoSelection9.values.head? = some firstH3 ∧
      (goToCustomerPage demoSelection9 emptyStorage).1.lockedH3Data =
        some (listLocked demoSelection9.keys firstH3.resolution)) ∧
    demoSelection9.keys.Nodup :=
  have h := C9_commit demoH3 demoSelection9 demoForm "" emptyStorage
  ⟨by decide,
   (h.2.1 (by decide)).imp (fun _ hf => ⟨hf.1, hf.2.2.2.1⟩),
   (h.2.2.2 (Reachable.add (tenths 247) (tenths 466) 9 [] Reachable.start)).1⟩

/-- C10: for a non-empty cell identifier `c`, a resolution `r` and any contents of the
page, `validateLocation` against the older shape (`h3Index: c`, no `h3Indices` array)
ends the same way, with the same verdict and the same status, as against the shape
`h3Indices: [c]`, whether the object is already in the page variable or is loaded
from `localStorage`. -/
theorem C10_legacy_shape_same_verdict (js : JS) (h3 : H3) (ls : LocalStorage)
    (st : CustomerState) (c : Cell) (r : Int) (hc : c ≠ "") :
    ((validateLocation js h3 ls { st with lockedH3Data := some (legacyLocked c r) }).1.isValidLocation
        = (validateLocation js h3 ls
            { st with lockedH3Data := some (listLocked [c] r) }).1.isValidLocation ∧
     (validateLocation js h3 ls { st with lockedH3Data := some (legacyLocked c r) }).1.validationStatus
        = (validateLocation js h3 ls
            { st with lockedH3Data := some (listLocked [c] r) }).1.validationStatus ∧
     (validateLocation js h3 ls { st with lockedH3Data := some (legacyLocked c r) }).2
        = (validateLocation js h3 ls { st with lockedH3Data := some (listLocked [c] r) }).2) ∧
    (st.lockedH3Data = none →
      (validateLocation js h3 { ls with lockedH3Data := some (legacyLocked c r) } st).1.isValidLocation
        = (validateLocation js h3
            { ls with lockedH3Data := some (listLocked [c] r) } st).1.isValidLocation ∧
      (validateLocation js h3 { ls with lockedH3Data := some (legacyLocked c r) } st).1.validationStatus
        = (validateLocation js h3
            { ls with lockedH3Data := some (listLocked [c] r) } st).1.validationStatus ∧
      (validateLocation js h3 { ls with lockedH3Data := some (legacyLocked c r) } st).2
        = (validateLocation js h3 { ls with lockedH3Data := some (listLocked [c] r) } st).2) := by
  have hcongr := validateLoaded_congr js h3 (legacyLocked c r) (listLocked [c] r) st rfl
    (by simp [lockedIndices, legacyLocked, listLocked, hc])
  refine ⟨?_, fun hnone => ?_⟩
  · simp only [validateLocation, validateLoaded_locked, hcongr]
    simp
  · simp only [validateLocation, hnone, loadLockedH3Data, validateLoaded_locked, hcongr]
    simp

/-- C10, at an instance: the cell `89-a` at resolution 9 and the point (24.7, 46.6). -/
theorem C10_legacy_shape_witness :
    ("89-a" : Cell) ≠ "" ∧
    (validateLocation demoJS demoH3 emptyStorage
      { CustomerState.fresh (some "24.7") (some "46.6") "" with
        lockedH3Data := some (legacyLocked "89-a" 9) }).1.isValidLocation =
    (validateLocation demoJS demoH3 emptyStorage
      { CustomerState.fresh (some "24.7") (some "46.6") "" with
        lockedH3Data := some (listLocked ["89-a"] 9) }).1.isValidLocation :=
  ⟨by decide,
   (C10_legacy_shape_same_verdict demoJS demoH3 emptyStorage
      (CustomerState.fresh (some "24.7") (some "46.6") "") "89-a" 9 (by decide)).1.1⟩

/-- C11 (as stated, refuted): on the grid fragment `latLngToCell` fails on the point
(Infinity, 46.6), and `validateLocationInH3` returns the verdict `false` for it. -/
theorem C11_counterexample :
    demoH3.latLngToCell .posInf (tenths 466) 9 = .error "coordinates out of range" ∧
    validateLocationInH3 demoH3 .posInf (tenths 466) ["89-a"] 9 = false := by
  decide

/-- C11 (amended): for every locked geofence and every candidate read from the page,
`validateLocation` ends with a thrown error exactly when `latLngToCell` fails on the
candidate at the locked resolution, the error is the one of `latLngToCell`, and no
verdict is set (`isValidLocation` and the status keep their values);
`validateLocationInH3` catches the failure and returns `false`. -/
theorem C11_failure_of_validation (js : JS) (h3 : H3) (ls : LocalStorage)
    (st : CustomerState) (locked : LockedH3Data) (lat lng : JSNum)
    (hlocked : st.lockedH3Data = some locked ∨
      (st.lockedH3Data = none ∧ ls.lockedH3Data = some locked))
    (hcoords : (readCustomerCoords js st).2 = some { lat := lat, lng := lng }) :
    (∀ e, (validateLocation js h3 ls st).2 = .threw e ↔
      h3.latLngToCell lat lng locked.resolution = .error e) ∧
    (∀ e, h3.latLngToCell lat lng locked.resolution = .error e →
      (validateLocation js h3 ls st).1.isValidLocation = st.isValidLocation ∧
      (validateLocation js h3 ls st).1.validationStatus = st.validationStatus) ∧
    (∀ e cells, h3.latLngToCell lat lng locked.resolution = .error e →
      validateLocationInH3 h3 lat lng cells locked.resolution = false) := by
  refine ⟨fun e => ?_, fun e he => ?_, fun e cells he => ?_⟩
  · cases hcell : h3.latLngToCell lat lng locked.resolution with
    | error e2 =>
      obtain ⟨h1, _⟩ := validateLocation_of_error js h3 ls st locked lat lng e2 hlocked hcoords hcell
      rw [h1]
      constructor
      · intro h; cases h; rfl
      · intro h; cases h; rfl
    | ok c =>
      obtain ⟨_, _, _, h4, _⟩ :=
        validateLocation_of_cell js h3 ls st locked lat lng c hlocked hcoords hcell
      rw [h4]
      constructor
      · intro h; cases h
      · intro h; cases h
  · obtain ⟨_, h2, h3', _⟩ :=
      validateLocation_of_error js h3 ls st locked lat lng e hlocked hcoords he
    exact ⟨h2, h3'⟩
  · simp [validateLocationInH3, he]

/-- C11 (amended), at an instance: the point (Infinity, 46.6) against the geofence
`89-a`. -/
theorem C11_failure_witness :
    (validateLocation stdJS demoH3 demoLockedStorage
      (CustomerState.fresh (some "Infinity") (some "46.6") "")).2 =
        .threw "coordinates out of range" :=
  ((C11_failure_of_validation stdJS demoH3 demoLockedStorage
    (CustomerState.fresh (some "Infinity") (some "46.6") "") (listLocked ["89-a"] 9)
    .posInf (tenths 466) (Or.inr ⟨rfl, by decide⟩) (by decide)).1
    "coordinates out of range").2 (by decide)

/-- C12 (the code at the failing input): after a validation of (24.7, 46.6) that set
`isValidLocation`, a validation of (Infinity, 46.6) throws at `latLngToCell`; it has
already assigned `currentLocation` and leaves `isValidLocation` true, and
`processPayment` then goes on to `proceedWithPayment` for a location on which
`latLngToCell` fails. -/
theorem C12_payment_after_failed_validation :
    demoValidated.isValidLocation = true ∧
    demoAfterFailure.2 = .threw "coordinates out of range" ∧
    demoAfterFailure.1.isValidLocation = true ∧
    demoAfterFailure.1.currentLocation = some { lat := .posInf, lng := tenths 466 } ∧
    demoAfterFailure.1.lockedH3Data = some (listLocked ["89-a"] 9) ∧
    demoH3.latLngToCell .posInf (tenths 466) 9 = .error "coordinates out of range" ∧
    (processPayment stdJS demoH3 demoLockedStorage demoAfterFailure.1).2 = .proceeded ∧
    (getCurrentLocation stdJS demoH3 demoLockedStorage demoValidated
      (.position .posInf (tenths 466))).1.isValidLocation = true ∧
    (getCurrentLocation stdJS demoH3 demoLockedStorage demoValidated
      (.position .posInf (tenths 466))).1.currentLocation =
        some { lat := .posInf, lng := tenths 466 } := by
  decide

/-- C13: for every input whose two sides parse to numbers `a` and `b`,
`parseCoordinates` returns the pair read latitude first when `a` lies in [-90, 90] and
`b` in [-180, 180], and the swapped pair in every other case, never `null`; so for two
different numbers it returns (`a`, `b`) exactly when the range test holds, a pair of
numbers both in [-90, 90] is read latitude first, as `10, 20` is, and when neither
ordering passes the test the result is the swapped pair. -/
theorem C13_disambiguation_rule (js : JS) (input : String) (a b : JSNum)
    (hsides : SidesParse js input a b) (ha : a.isNaN = false) (hb : b.isNaN = false) :
    (ValidOrdering a b → parseCoordinates js input = some { lat := a, lng := b }) ∧
    (¬ ValidOrdering a b → parseCoordinates js input = some { lat := b, lng := a }) ∧
    (a ≠ b → (parseCoordinates js input = some { lat := a, lng := b } ↔ ValidOrdering a b)) ∧
    (InRange (-90) 90 a → InRange (-90) 90 b →
      parseCoordinates js input = some { lat := a, lng := b }) ∧
    (¬ ValidOrdering a b → ¬ ValidOrdering b a →
      parseCoordinates js input = some { lat := b, lng := a }) ∧
    parseCoordinates stdJS "10, 20" = some { lat := .fin 10, lng := .fin 20 } := by
  have hp := parseCoordinates_of_sides js input a b hsides
  have hv : ValidOrdering a b → parseCoordinates js input = some { lat := a, lng := b } :=
    fun h => hp.trans (orderCoordinates_valid a b h)
  have hs : ¬ ValidOrdering a b → parseCoordinates js input = some { lat := b, lng := a } :=
    fun h => hp.trans (orderCoordinates_swapped a b ha hb h)
  refine ⟨hv, hs, fun hne => ⟨fun h => ?_, hv⟩, fun h1 h2 => ?_, fun h _ => hs h, by decide⟩
  · by_contra hnot
    rw [hs hnot] at h
    simp only [Option.some.injEq, LatLng.mk.injEq] at h
    exact hne h.1.symm
  · exact hv ⟨h1, h2.mono (by norm_num) (by norm_num)⟩

/-- C13, at an instance: the text `10, 20`. -/
theorem C13_disambiguation_witness :
    parseCoordinates stdJS "10, 20" = some { lat := .fin 10, lng := .fin 20 } :=
  (C13_disambiguation_rule stdJS "10, 20" (.fin 10) (.fin 20)
    ⟨"10", "20", by decide, by decide, by decide⟩ rfl rfl).1
    ⟨⟨10, rfl, by norm_num, by norm_num⟩, ⟨20, rfl, by norm_num, by norm_num⟩⟩

/-- C14 (as stated, refuted): `parseCoordinates` on the text `46.6753, 24.7136` does not
return latitude 24.7136 and longitude 46.6753. -/
theorem C14_counterexample :
    parseCoordinates stdJS "46.6753, 24.7136" ≠
      some { lat := .fin (mkRat 247136 10000), lng := .fin (mkRat 466753 10000) } := by
  decide

/-- C14 (amended): `parseCoordinates` on the text `46.6753, 24.7136` returns latitude
46.6753 and longitude 24.7136, the numbers in the order they are written; this holds
for every `parseFloat` that reads the two sides as numbers in [-90, 90]. -/
theorem C14_example_read_lat_first (js : JS)
    (h1 : InRange (-90) 90 (js.parseFloat "46.6753"))
    (h2 : InRange (-90) 90 (js.parseFloat "24.7136")) :
    parseCoordinates js "46.6753, 24.7136" =
      some { lat := js.parseFloat "46.6753", lng := js.parseFloat "24.7136" } ∧
    parseCoordinates stdJS "46.6753, 24.7136" =
      some { lat := .fin (mkRat 466753 10000), lng := .fin (mkRat 247136 10000) } := by
  refine ⟨?_, by decide⟩
  rw [parseCoordinates_of_sides js "46.6753, 24.7136" _ _ ⟨"46.6753", "24.7136", by decide, rfl, rfl⟩]
  exact orderCoordinates_valid _ _ ⟨h1, h2.mono (by norm_num) (by norm_num)⟩

/-- C14 (amended), with the built-ins on exact values. -/
theorem C14_example_witness :
    parseCoordinates stdJS "46.6753, 24.7136" =
      some { lat := stdJS.parseFloat "46.6753", lng := stdJS.parseFloat "24.7136" } :=
  (C14_example_read_lat_first stdJS
    ⟨mkRat 466753 10000, by decide, by decide, by decide⟩
    ⟨mkRat 247136 10000, by decide, by decide, by decide⟩).1

/-- C15: for every pair of numbers (`x`, `y`) of which exactly one ordering passes the
range test, `parseCoordinates` returns the same pair for a text whose sides read
`x, y` and for a text whose sides read `y, x`: the ordering that passes the test. -/
theorem C15_parser_symmetry (js : JS) (t1 t2 : String) (x y : JSNum)
    (h1 : SidesParse js t1 x y) (h2 : SidesParse js t2 y x)
    (hone : (ValidOrdering x y ∧ ¬ ValidOrdering y x) ∨
      (ValidOrdering y x ∧ ¬ ValidOrdering x y)) :
    parseCoordinates js t1 = parseCoordinates js t2 ∧
    (ValidOrdering x y → parseCoordinates js t1 = some { lat := x, lng := y }) ∧
    (ValidOrdering y x → parseCoordinates js t1 = some { lat := y, lng := x }) := by
  rw [parseCoordinates_of_sides js t1 x y h1, parseCoordinates_of_sides js t2 y x h2]
  rcases hone with ⟨hv, hn⟩ | ⟨hv, hn⟩
  · have e1 := orderCoordinates_valid x y hv
    have e2 := orderCoordinates_swapped y x hv.2.not_nan hv.1.not_nan hn
    exact ⟨e1.trans e2.symm, fun _ => e1, fun h => absurd h hn⟩
  · have e1 := orderCoordinates_swapped x y hv.2.not_nan hv.1.not_nan hn
    have e2 := orderCoordinates_valid y x hv
    exact ⟨e1.trans e2.symm, fun h => absurd h hn, fun _ => e1⟩

/-- C15, at an instance: the numbers 20 and 100, of which only (20, 100) is a
coordinate. -/
theorem C15_parser_symmetry_witness :
    parseCoordinates stdJS "20, 100" = parseCoordinates stdJS "100, 20" :=
  (C15_parser_symmetry stdJS "20, 100" "100, 20" (.fin 20) (.fin 100)
    ⟨"20", "100", by decide, by decide, by decide⟩
    ⟨"100", "20", by decide, by decide, by decide⟩
    (Or.inl ⟨⟨⟨20, rfl, by norm_num, by norm_num⟩, ⟨100, rfl, by norm_num, by norm_num⟩⟩,
      fun h => by
        obtain ⟨q, hq, _, hle⟩ := h.1
        cases hq
        norm_num at hle⟩)).1

/-- C16 (as stated, refuted): the side `12abc` has characters after its number and the
side `Infinity` denotes an infinity, yet `parseCoordinates` returns a pair for the
texts `12abc, 5` and `Infinity, 5`. -/
theorem C16_counterexample :
    parseCoordinates stdJS "12abc, 5" = some { lat := .fin 12, lng := .fin 5 } ∧
    parseCoordinates stdJS "Infinity, 5" = some { lat := .fin 5, lng := .posInf } := by
  decide

/-- C16 (amended): for every input string with a comma, `parseCoordinates` returns
`null` exactly when `parseFloat` gives `NaN` for the text on one side of the first
comma; a side that starts with a number is read by that number and an infinity is a
number. -/
theorem C16_null_iff_nan (js : JS) (input l r : String)
    (hsides : coordinateSides input = some (l, r)) :
    (parseCoordinates js input = none ↔
      (js.parseFloat l).isNaN = true ∨ (js.parseFloat r).isNaN = true) ∧
    ((js.parseFloat l).isNaN = false → (js.parseFloat r).isNaN = false →
      ∃ p, parseCoordinates js input = some p) := by
  have hp := parseCoordinates_of_sides js input _ _ ⟨l, r, hsides, rfl, rfl⟩
  rw [hp]
  refine ⟨orderCoordinates_eq_none _ _, fun h1 h2 => ?_⟩
  cases ho : orderCoordinates (js.parseFloat l) (js.parseFloat r) with
  | some p => exact ⟨p, rfl⟩
  | none =>
    rcases (orderCoordinates_eq_none _ _).1 ho with h | h
    · rw [h1] at h; cases h
    · rw [h2] at h; cases h

/-- C16 (amended), at an instance: the text `abc, 5`, whose first side has no number. -/
theorem C16_null_iff_nan_witness :
    parseCoordinates stdJS "abc, 5" = none :=
  (C16_null_iff_nan stdJS "abc, 5" "abc" "5" (by decide)).1.2 (Or.inl (by decide))

/-- C17: for every input string that is empty, consists of whitespace only, or has no
comma, `parseCoordinates` returns `null`. -/
theorem C17_null_without_comma (js : JS) (input : String)
    (h : input = "" ∨ (∀ c ∈ input.data, isJSWhitespace c = true) ∨ ',' ∉ input.data) :
    parseCoordinates js input = none := by
  rw [parseCoordinates_eq, coordinateSides_eq_none input h]
  rfl

/-- C17, at an instance: the text `10 20`, which has no comma. -/
theorem C17_null_without_comma_witness :
    parseCoordinates stdJS "10 20" = none :=
  C17_null_without_comma stdJS "10 20" (Or.inr (Or.inr (by decide)))

/-- C18 (as stated, refuted): `parseCoordinates` returns the pair (300, 200) for the
text `200, 300`; that pair is written `300, 200`, and on this text `parseCoordinates`
returns the other pair (200, 300). -/
theorem C18_counterexample :
    parseCoordinates stdJS "200, 300" = some { lat := .fin 300, lng := .fin 200 } ∧
    formatPair stdJS { lat := .fin 300, lng := .fin 200 } = "300, 200" ∧
    parseCoordinates stdJS "300, 200" = some { lat := .fin 200, lng := .fin 300 } ∧
    parseCoordinates stdJS (formatPair stdJS { lat := .fin 300, lng := .fin 200 }) ≠
      parseCoordinates stdJS "200, 300" := by
  decide

/-- C18 (amended): for every input whose sides parse to `a` and `b` and on which
`parseCoordinates` returns a pair, parsing a text that writes that pair as `lat, lng`
returns the same pair exactly when one of the two orderings of `a` and `b` passes the
range test or `a` equals `b`. -/
theorem C18_reparse_iff (js : JS) (input text : String) (a b : JSNum) (p : LatLng)
    (hsides : SidesParse js input a b) (hparse : parseCoordinates js input = some p)
    (htext : SidesParse js text p.lat p.lng) :
    parseCoordinates js text = some p ↔ (ValidOrdering a b ∨ ValidOrdering b a ∨ a = b) := by
  rw [parseCoordinates_of_sides js input a b hsides] at hparse
  rw [parseCoordinates_of_sides js text _ _ htext]
  have hnan : a.isNaN = false ∧ b.isNaN = false := by
    cases ha : a.isNaN <;> cases hb : b.isNaN <;> simp [orderCoordinates, ha, hb] at hparse
    exact ⟨rfl, rfl⟩
  by_cases hab : ValidOrdering a b
  · rw [orderCoordinates_valid a b hab] at hparse
    cases hparse
    simp [orderCoordinates_valid a b hab, hab]
  · rw [orderCoordinates_swapped a b hnan.1 hnan.2 hab] at hparse
    cases hparse
    by_cases hba : ValidOrdering b a
    · simp [orderCoordinates_valid b a hba, hba]
    · rw [orderCoordinates_swapped b a hnan.2 hnan.1 hba]
      simp only [Option.some.injEq, LatLng.mk.injEq, hab, hba, false_or]
      constructor
      · intro h; exact h.1
      · intro h; exact ⟨h, h.symm⟩

/-- C18 (amended), at an instance: the text `46.6753, 24.7136` and the writing of its
pair. -/
theorem C18_reparse_witness :
    parseCoordinates stdJS
        (formatPair stdJS { lat := .fin (mkRat 466753 10000), lng := .fin (mkRat 247136 10000) }) =
      some { lat := .fin (mkRat 466753 10000), lng := .fin (mkRat 247136 10000) } :=
  (C18_reparse_iff stdJS "46.6753, 24.7136"
    (formatPair stdJS { lat := .fin (mkRat 466753 10000), lng := .fin (mkRat 247136 10000) })
    (.fin (mkRat 466753 10000)) (.fin (mkRat 247136 10000))
    { lat := .fin (mkRat 466753 10000), lng := .fin (mkRat 247136 10000) }
    ⟨"46.6753", "24.7136", by decide, by decide, by decide⟩ (by decide)
    ⟨"46.6753", "24.7136", by decide, by decide, by decide⟩).2
    (Or.inl ⟨⟨mkRat 466753 10000, rfl, by decide, by decide⟩,
             ⟨mkRat 247136 10000, rfl, by decide, by decide⟩⟩)

/-- C19 (the code at the failing input): a click on the map at latitude 24.7136 and
longitude 46.6753 writes the text `46.675300, 24.713600` into the `coordinates` input;
`parseCoordinates` reads that text as latitude 46.6753 and longitude 24.7136, and the
handlers of the input then write these swapped values over the two separate inputs.
The text with the latitude first is read as clicked. -/
theorem C19_lng_first_text_misread :
    merchantMapClick stdJS (.fin (mkRat 247136 10000)) (.fin (mkRat 466753 10000))
        { latitude := "", longitude := "", coordinates := "" } =
      { latitude := "24.713600", longitude := "46.675300",
        coordinates := "46.675300, 24.713600" } ∧
    parseCoordinates stdJS "46.675300, 24.713600" =
      some { lat := .fin (mkRat 466753 10000), lng := .fin (mkRat 247136 10000) } ∧
    coordinatesEntered stdJS
        { latitude := "24.713600", longitude := "46.675300",
          coordinates := "46.675300, 24.713600" } =
      { latitude := "46.6753", longitude := "24.7136",
        coordinates := "46.675300, 24.713600" } ∧
    parseCoordinates stdJS "24.713600, 46.675300" =
      some { lat := .fin (mkRat 247136 10000), lng := .fin (mkRat 466753 10000) } := by
  decide

/-- C20 (as stated, refuted): on the grid fragment the same two entries, `89-a` recorded
with resolution 9 and `8a-c` recorded with resolution 10, inserted in the two orders
are committed with resolution 9 and with resolution 10, and the point (24.7, 46.6) is
valid against the first commit and invalid against the second. -/
theorem C20_counterexample :
    demoMixedSelection =
      [("89-a", { h3Index := "89-a", resolution := 9, lat := tenths 247, lng := tenths 466 }),
       ("8a-c", { h3Index := "8a-c", resolution := 10, lat := tenths 248, lng := tenths 467 })] ∧
    demoMixedSelectionRev =
      [("8a-c", { h3Index := "8a-c", resolution := 10, lat := tenths 248, lng := tenths 467 }),
       ("89-a", { h3Index := "89-a", resolution := 9, lat := tenths 247, lng := tenths 466 })] ∧
    (goToCustomerPage demoMixedSelection emptyStorage).1.lockedH3Data =
      some (listLocked ["89-a", "8a-c"] 9) ∧
    (goToCustomerPage demoMixedSelectionRev emptyStorage).1.lockedH3Data =
      some (listLocked ["8a-c", "89-a"] 10) ∧
    (validateLocation stdJS demoH3 (goToCustomerPage demoMixedSelection emptyStorage).1
      (CustomerState.fresh (some "24.7") (some "46.6") "")).1.isValidLocation = true ∧
    (validateLocation stdJS demoH3 (goToCustomerPage demoMixedSelectionRev emptyStorage).1
      (CustomerState.fresh (some "24.7") (some "46.6") "")).1.isValidLocation = false := by
  decide

/-- C20 (amended): for every two selections that hold the same entries in different
orders and whose first cells are recorded with the same resolution (as when all cells
have one resolution), `goToCustomerPage` and `saveMerchant` write locked geofences with
the same resolution, and `validateLocation` in a newly opened customer page ends the
same way, with the same verdict and status, against the two. -/
theorem C20_commit_order_independent (js : JS) (h3 : H3) (s1 s2 : Selection)
    (form : MerchantForm) (createdAt : String) (ls : LocalStorage) (st : CustomerState)
    (hperm : s1.Perm s2)
    (hres : s1.values.head?.map HexData.resolution = s2.values.head?.map HexData.resolution)
    (hpage : st.lockedH3Data = none) :
    ((goToCustomerPage s1 ls).1.lockedH3Data.map LockedH3Data.resolution =
        (goToCustomerPage s2 ls).1.lockedH3Data.map LockedH3Data.resolution ∧
     (validateLocation js h3 (goToCustomerPage s1 ls).1 st).1.isValidLocation =
        (validateLocation js h3 (goToCustomerPage s2 ls).1 st).1.isValidLocation ∧
     (validateLocation js h3 (goToCustomerPage s1 ls).1 st).1.validationStatus =
        (validateLocation js h3 (goToCustomerPage s2 ls).1 st).1.validationStatus ∧
     (validateLocation js h3 (goToCustomerPage s1 ls).1 st).2 =
        (validateLocation js h3 (goToCustomerPage s2 ls).1 st).2) ∧
    ((saveMerchant s1 form createdAt ls).1.lockedH3Data.map LockedH3Data.resolution =
        (saveMerchant s2 form createdAt ls).1.lockedH3Data.map LockedH3Data.resolution ∧
     (validateLocation js h3 (saveMerchant s1 form createdAt ls).1 st).1.isValidLocation =
        (validateLocation js h3 (saveMerchant s2 form createdAt ls).1 st).1.isValidLocation ∧
     (validateLocation js h3 (saveMerchant s1 form createdAt ls).1 st).1.validationStatus =
        (validateLocation js h3 (saveMerchant s2 form createdAt ls).1 st).1.validationStatus ∧
     (validateLocation js h3 (saveMerchant s1 form createdAt ls).1 st).2 =
        (validateLocation js h3 (saveMerchant s2 form createdAt ls).1 st).2) := by
  cases s1 with
  | nil =>
    have : s2 = [] := hperm.nil_eq.symm
    subst this
    exact ⟨⟨rfl, rfl, rfl, rfl⟩, ⟨rfl, rfl, rfl, rfl⟩⟩
  | cons e1 t1 =>
    cases s2 with
    | nil => exact absurd hperm.symm.nil_eq (by simp)
    | cons e2 t2 =>
      have hr : e1.2.resolution = e2.2.resolution := by
        simpa [Selection.values] using hres
      have hmem : ∀ c, c ∈ Selection.keys (e1 :: t1) ↔ c ∈ Selection.keys (e2 :: t2) :=
        fun c => (hperm.map Prod.fst).mem_iff
      have hcongr := validateLoaded_congr_mem js h3
        (listLocked (Selection.keys (e1 :: t1)) e1.2.resolution)
        (listLocked (Selection.keys (e2 :: t2)) e2.2.resolution) st hr
        (by simpa [lockedIndices, listLocked] using hmem)
      have key : ∀ la lb : LocalStorage,
          la.lockedH3Data = some (listLocked (Selection.keys (e1 :: t1)) e1.2.resolution) →
          lb.lockedH3Data = some (listLocked (Selection.keys (e2 :: t2)) e2.2.resolution) →
          la.lockedH3Data.map LockedH3Data.resolution =
            lb.lockedH3Data.map LockedH3Data.resolution ∧
          (validateLocation js h3 la st).1.isValidLocation =
            (validateLocation js h3 lb st).1.isValidLocation ∧
          (validateLocation js h3 la st).1.validationStatus =
            (validateLocation js h3 lb st).1.validationStatus ∧
          (validateLocation js h3 la st).2 = (validateLocation js h3 lb st).2 := by
        intro la lb ha hb
        refine ⟨by simp [ha, hb, listLocked, hr], ?_⟩
        have hc2 := hcongr
        simp only [Selection.keys_cons] at hc2
        simp [validateLocation, hpage, loadLockedH3Data, ha, hb, validateLoaded_locked, hc2]
      exact ⟨key _ _ rfl rfl, key _ _ rfl rfl⟩

/-- C20 (amended), at an instance: the cells `89-a` and `89-c`, both recorded with
resolution 9, in the two orders. -/
theorem C20_commit_order_witness :
    (validateLocation stdJS demoH3
      (goToCustomerPage
        [("89-a", { h3Index := "89-a", resolution := 9, lat := tenths 247, lng := tenths 466 }),
         ("89-c", { h3Index := "89-c", resolution := 9, lat := tenths 248, lng := tenths 467 })]
        emptyStorage).1
      (CustomerState.fresh (some "24.7") (some "46.6") "")).1.isValidLocation =
    (validateLocation stdJS demoH3
      (goToCustomerPage
        [("89-c", { h3Index := "89-c", resolution := 9, lat := tenths 248, lng := tenths 467 }),
         ("89-a", { h3Index := "89-a", resolution := 9, lat := tenths 247, lng := tenths 466 })]
        emptyStorage).1
      (CustomerState.fresh (some "24.7") (some "46.6") "")).1.isValidLocation :=
  (C20_commit_order_independent stdJS demoH3
    [("89-a", { h3Index := "89-a", resolution := 9, lat := tenths 247, lng := tenths 466 }),
     ("89-c", { h3Index := "89-c", resolution := 9, lat := tenths 248, lng := tenths 467 })]
    [("89-c", { h3Index := "89-c", resolution := 9, lat := tenths 248, lng := tenths 467 }),
     ("89-a", { h3Index := "89-a", resolution := 9, lat := tenths 247, lng := tenths 466 })]
    demoForm "" emptyStorage (CustomerState.fresh (some "24.7") (some "46.6") "")
    (List.Perm.swap _ _ _) rfl rfl).1.2.1

/-- C21 (the code at the failing input): `addAdjacentHexagons` records every cell it
inserts with the resolution read from the form. On the grid fragment, the selection
holds `89-a` recorded with resolution 9 and the form shows resolution 10: the expansion
inserts the neighbour `89-b` recorded with resolution 10. After a second expansion
and the removal of `89-a` the commit writes resolution 10 for the cells `89-b` and
`89-c`, and the point (24.8, 46.7), whose cell at resolution 9 is the selected `89-c`,
is validated as outside. -/
theorem C21_expansion_records_form_resolution :
    (∀ (h3 : H3) (resolution : Int) (sel : Selection), sel ≠ [] →
      ∃ out : Selection, (addAdjacentHexagons h3 resolution sel).1 = sel ++ out ∧
        ∀ e ∈ out, e.2.resolution = resolution) ∧
    demoSelection9 =
      [("89-a", { h3Index := "89-a", resolution := 9, lat := tenths 247, lng := tenths 466 })] ∧
    (addAdjacentHexagons demoH3 10 demoSelection9).1 =
      demoSelection9 ++
        [("89-b", { h3Index := "89-b", resolution := 10, lat := hundredths 2475,
                    lng := hundredths 4665 })] ∧
    demoExpandedTrimmed.keys = ["89-b", "89-c"] ∧
    (goToCustomerPage demoExpandedTrimmed emptyStorage).1.lockedH3Data =
      some (listLocked ["89-b", "89-c"] 10) ∧
    demoH3.latLngToCell (tenths 248) (tenths 467) 9 = .ok "89-c" ∧
    (validateLocation stdJS demoH3 (goToCustomerPage demoExpandedTrimmed emptyStorage).1
      (CustomerState.fresh (some "24.8") (some "46.7") "")).1.isValidLocation = false := by
  refine ⟨fun h3 resolution sel hne => ?_, by decide, by decide, by decide, by decide,
    by decide, by decide⟩
  obtain ⟨out, h1, _, _, _, h5, _⟩ := addAdjacentHexagons_spec h3 resolution sel hne
  exact ⟨out, h1, fun e he => (h5 e he).2⟩

/-- C22: `removeH3Hexagon(c)` on a selection without `c` returns it unchanged; on a
selection with `c` it returns the entries of the other cells, in their order and with
their records, and no entry for `c`; as a map holds each key once, the keys are the
previous ones without `c` and the size is one less. -/
theorem C22_remove (c : Cell) (sel : Selection) :
    (c ∉ sel.keys → removeH3Hexagon c sel = sel) ∧
    (c ∈ sel.keys →
      c ∉ (removeH3Hexagon c sel).keys ∧
      (∀ k, k ≠ c → (removeH3Hexagon c sel).get k = sel.get k) ∧
      (∀ k, k ≠ c → (k ∈ (removeH3Hexagon c sel).keys ↔ k ∈ sel.keys)) ∧
      (removeH3Hexagon c sel).Sublist sel ∧
      (sel.keys.Nodup →
        (removeH3Hexagon c sel).keys = sel.keys.erase c ∧
        (removeH3Hexagon c sel).size + 1 = sel.size)) := by
  constructor
  · intro h
    simp [removeH3Hexagon, (Selection.get_eq_none_iff sel c).2 h]
  · intro h
    have hget : ∃ d, sel.get c = some d := by
      cases hg : sel.get c with
      | none => exact absurd h ((Selection.get_eq_none_iff sel c).1 hg)
      | some d => exact ⟨d, rfl⟩
    obtain ⟨d, hd⟩ := hget
    have hrem : removeH3Hexagon c sel = sel.delete c := by simp [removeH3Hexagon, hd]
    rw [hrem]
    refine ⟨?_, fun k hk => Selection.get_delete_of_ne sel c k hk, fun k hk => ?_, ?_,
      fun hnd => ?_⟩
    · simp [Selection.keys_delete]
    · simp [Selection.keys_delete, hk]
    · exact List.filter_sublist sel
    · have hk : (sel.delete c).keys = sel.keys.erase c := by
        rw [Selection.keys_delete, hnd.erase_eq_filter]
        apply List.filter_congr
        intro k _
        by_cases hkc : k = c <;> simp [hkc]
      refine ⟨hk, ?_⟩
      have hlen : (sel.delete c).size = (sel.delete c).keys.length := by
        simp [Selection.size, Selection.keys]
      have hlen2 : sel.size = sel.keys.length := by simp [Selection.size, Selection.keys]
      rw [hlen, hlen2, hk, List.length_erase_of_mem h]
      have : 0 < sel.keys.length := List.length_pos_of_mem h
      omega

/-- C22, at an instance: the removal of `89-a` from the selection holding `89-a` and
`8a-c`. -/
theorem C22_remove_witness :
    "89-a" ∈ demoMixedSelection.keys ∧
    (removeH3Hexagon "89-a" demoMixedSelection).size + 1 = demoMixedSelection.size :=
  ⟨by decide, (((C22_remove "89-a" demoMixedSelection).2 (by decide)).2.2.2.2 (by decide)).2⟩

/-- C23: `clearSelectedHexagons` leaves no cell, from every selection, and the page
then shows no resolution; an add of a valid point at any resolution `r` after the
clear stores its cell recorded with `r`, the page shows `r` for the selection, and
`goToCustomerPage` and `saveMerchant` commit `r`, whatever the selection held before
the clear. -/
theorem C23_clear_releases_resolution (h3 : H3) (sel : Selection) (lat lng : JSNum)
    (r : Int) (c : Cell) (shown : H3Display) (form : MerchantForm) (createdAt : String)
    (ls : LocalStorage)
    (hlat : lat.isNaN = false) (hlng : lng.isNaN = false)
    (hcell : h3.latLngToCell lat lng r = .ok c) (hne : c ≠ "")
    (hdraw : succeeds (h3.cellToBoundary c) = true) :
    clearSelectedHexagons sel = [] ∧
    (updateH3Display (clearSelectedHexagons sel) shown).h3Count = 0 ∧
    (updateH3Display (clearSelectedHexagons sel) shown).h3Resolution = none ∧
    addH3Hexagon h3 lat lng r (clearSelectedHexagons sel) =
      ([(c, { h3Index := c, resolution := r, lat := lat, lng := lng })], .added c) ∧
    (updateH3Display (addH3Hexagon h3 lat lng r (clearSelectedHexagons sel)).1
      (updateH3Display (clearSelectedHexagons sel) shown)).h3Resolution = some r ∧
    (goToCustomerPage (addH3Hexagon h3 lat lng r (clearSelectedHexagons sel)).1
      ls).1.lockedH3Data = some (listLocked [c] r) ∧
    (saveMerchant (addH3Hexagon h3 lat lng r (clearSelectedHexagons sel)).1 form createdAt
      ls).1.lockedH3Data = some (listLocked [c] r) := by
  have hadd := addH3Hexagon_added h3 lat lng r [] c hlat hlng hcell hne (by simp) hdraw
  have hadd2 : addH3Hexagon h3 lat lng r (clearSelectedHexagons sel) =
      ([(c, { h3Index := c, resolution := r, lat := lat, lng := lng })], .added c) := hadd
  rw [hadd2]
  exact ⟨rfl, rfl, rfl, rfl, rfl, rfl, rfl⟩

/-- C23, at an instance: after a clear of the selection recorded with resolution 9, an
add of (24.8, 46.7) at resolution 10. -/
theorem C23_clear_witness :
    (goToCustomerPage
      (addH3Hexagon demoH3 (tenths 248) (tenths 467) 10 (clearSelectedHexagons demoSelection9)).1
      emptyStorage).1.lockedH3Data = some (listLocked ["8a-c"] 10) :=
  (C23_clear_releases_resolution demoH3 demoSelection9 (tenths 248) (tenths 467) 10 "8a-c"
    emptyDisplay demoForm "" emptyStorage rfl rfl (by decide) (by decide) (by decide)).2.2.2.2.2.1

/-- C24: for every non-empty list of cell identifiers without a comma, `split(',')` of
their `join(',')` is the list itself; so for every selection with such keys the field
`h3_indices` that `saveMerchantToAPI` sends, built from the `h3Indices` text of the
replaced `saveMerchant`, is the list of the keys in their order. -/
theorem C24_join_split_roundtrip (cells : List String) (hne : cells ≠ [])
    (hcomma : ∀ c ∈ cells, ',' ∉ c.data) :
    jsSplitComma (jsJoinComma cells) = cells ∧
    (∀ (sel : Selection) (form : MerchantForm) (d : ApiFormData),
      sel.keys = cells → apiFormData sel form = some d →
        (saveMerchantToAPI d).h3_indices = cells) := by
  have hround := jsSplitComma_jsJoinComma cells hne hcomma
  refine ⟨hround, fun sel form d hk hd => ?_⟩
  cases sel with
  | nil => simp [apiFormData] at hd
  | cons e t =>
    simp only [apiFormData, Option.some.injEq] at hd
    subst hd
    simp only [saveMerchantToAPI, hk, hround]

/-- C24, at an instance: the keys `89-a` and `8a-c`. -/
theorem C24_join_split_witness :
    jsSplitComma (jsJoinComma ["89-a", "8a-c"]) = ["89-a", "8a-c"] :=
  (C24_join_split_roundtrip ["89-a", "8a-c"] (by decide) (by decide)).1

/-- C25: for every input whose two sides parse to numbers `a` and `b` of which one
ordering is a coordinate, `parseCoordinates` returns a pair whose latitude lies in
[-90, 90] and whose longitude lies in [-180, 180]. -/
theorem C25_result_in_range (js : JS) (input : String) (a b : JSNum)
    (hsides : SidesParse js input a b) (hvalid : ValidOrdering a b ∨ ValidOrdering b a) :
    ∃ p, parseCoordinates js input = some p ∧
      InRange (-90) 90 p.lat ∧ InRange (-180) 180 p.lng := by
  rw [parseCoordinates_of_sides js input a b hsides]
  by_cases hab : ValidOrdering a b
  · exact ⟨_, orderCoordinates_valid a b hab, hab.1, hab.2⟩
  · have hba : ValidOrdering b a := hvalid.resolve_left hab
    exact ⟨_, orderCoordinates_swapped a b hba.2.not_nan hba.1.not_nan hab, hba.1, hba.2⟩

/-- C25, at an instance: the text `100, 20`, of which only the ordering (20, 100) is a
coordinate. -/
theorem C25_result_in_range_witness :
    ∃ p, parseCoordinates stdJS "100, 20" = some p ∧
      InRange (-90) 90 p.lat ∧ InRange (-180) 180 p.lng :=
  C25_result_in_range stdJS "100, 20" (.fin 100) (.fin 20)
    ⟨"100", "20", by decide, by decide, by decide⟩
    (Or.inr ⟨⟨20, rfl, by norm_num, by norm_num⟩, ⟨100, rfl, by norm_num, by norm_num⟩⟩)

end H3Poc
